import Mathlib

/-!
Verification of the color-scale ramp generation engine.

The development shallowly embeds the two interpolation strategies of the
repository (`scale-v1.js`, curve based, and `scale-v2.js`, anchor based),
the curve parser, the easing catalog, the hue wrap, the peak booster and
the contrast scan of `colors-utilities.js`.  JavaScript numbers are
modelled as real numbers; the two perceptual color-space conversions
(`oklchToOKhsl` / `okhslToOKLCH`, which the repository imports from an
external module) are abstract function parameters, as the spec treats
them as external collaborators.
-/

open scoped Classical

namespace ColorScale

/-- The fixed table of the 13 step labels (`scale-v1.js`, the `steps` /
`allSteps` arrays). -/
def allSteps : List ℕ := [50, 100, 150, 200, 300, 400, 500, 600, 700, 800, 850, 900, 950]

/-- JavaScript `Array.prototype.indexOf` on a list of step labels: the
index of the first occurrence, `-1` when absent. -/
def jsIndexOf (l : List ℕ) (a : ℕ) : ℤ :=
  match l.findIdx? (fun x => x == a) with
  | some i => (i : ℤ)
  | none => -1

/-- The names of the easing catalog of `scale-v1.js`; `unknown` stands for
any string that is none of the nineteen recognized names (the `default`
branch of `ease` resolves it to linear with a warning). -/
inductive EasingType
  | linear
  | easeInSine | easeOutSine | easeInOutSine
  | easeInQuad | easeOutQuad | easeInOutQuad
  | easeInCubic | easeOutCubic | easeInOutCubic
  | easeInQuart | easeOutQuart | easeInOutQuart
  | easeInQuint | easeOutQuint | easeInOutQuint
  | easeInExpo | easeOutExpo | easeInOutExpo
  | unknown
  deriving DecidableEq, Repr

/-- `easeLinear` of `scale-v1.js`. -/
def easeLinear (t : ℝ) : ℝ := t

/-- `easeInSine` of `scale-v1.js`: `1 - cos(t * PI / 2)`. -/
noncomputable def easeInSine (t : ℝ) : ℝ := 1 - Real.cos (t * Real.pi / 2)

/-- `easeOutSine` of `scale-v1.js`: `sin(t * PI / 2)`. -/
noncomputable def easeOutSine (t : ℝ) : ℝ := Real.sin (t * Real.pi / 2)

/-- `easeInOutSine` of `scale-v1.js`: `-(cos(PI * t) - 1) / 2`. -/
noncomputable def easeInOutSine (t : ℝ) : ℝ := -(Real.cos (Real.pi * t) - 1) / 2

/-- `easeInQuad` of `scale-v1.js`. -/
def easeInQuad (t : ℝ) : ℝ := t * t

/-- `easeOutQuad` of `scale-v1.js`. -/
def easeOutQuad (t : ℝ) : ℝ := 1 - (1 - t) * (1 - t)

/-- `easeInOutQuad` of `scale-v1.js`. -/
noncomputable def easeInOutQuad (t : ℝ) : ℝ :=
  if t < 1 / 2 then 2 * t * t else 1 - (-2 * t + 2) ^ (2 : ℕ) / 2

/-- `easeInCubic` of `scale-v1.js`. -/
def easeInCubic (t : ℝ) : ℝ := t * t * t

/-- `easeOutCubic` of `scale-v1.js`. -/
def easeOutCubic (t : ℝ) : ℝ := 1 - (1 - t) ^ (3 : ℕ)

/-- `easeInOutCubic` of `scale-v1.js`. -/
noncomputable def easeInOutCubic (t : ℝ) : ℝ :=
  if t < 1 / 2 then 4 * t * t * t else 1 - (-2 * t + 2) ^ (3 : ℕ) / 2

/-- `easeInQuart` of `scale-v1.js`. -/
def easeInQuart (t : ℝ) : ℝ := t * t * t * t

/-- `easeOutQuart` of `scale-v1.js`. -/
def easeOutQuart (t : ℝ) : ℝ := 1 - (1 - t) ^ (4 : ℕ)

/-- `easeInOutQuart` of `scale-v1.js`. -/
noncomputable def easeInOutQuart (t : ℝ) : ℝ :=
  if t < 1 / 2 then 8 * t * t * t * t else 1 - (-2 * t + 2) ^ (4 : ℕ) / 2

/-- `easeInQuint` of `scale-v1.js`. -/
def easeInQuint (t : ℝ) : ℝ := t * t * t * t * t

/-- `easeOutQuint` of `scale-v1.js`. -/
def easeOutQuint (t : ℝ) : ℝ := 1 - (1 - t) ^ (5 : ℕ)

/-- `easeInOutQuint` of `scale-v1.js`. -/
noncomputable def easeInOutQuint (t : ℝ) : ℝ :=
  if t < 1 / 2 then 16 * t * t * t * t * t else 1 - (-2 * t + 2) ^ (5 : ℕ) / 2

/-- `easeInExpo` of `scale-v1.js`: `t === 0 ? 0 : pow(2, 10 * (t - 1))`. -/
noncomputable def easeInExpo (t : ℝ) : ℝ :=
  if t = 0 then 0 else (2 : ℝ) ^ (10 * (t - 1))

/-- `easeOutExpo` of `scale-v1.js`: `t === 1 ? 1 : 1 - pow(2, -10 * t)`. -/
noncomputable def easeOutExpo (t : ℝ) : ℝ :=
  if t = 1 then 1 else 1 - (2 : ℝ) ^ (-10 * t)

/-- `easeInOutExpo` of `scale-v1.js`. -/
noncomputable def easeInOutExpo (t : ℝ) : ℝ :=
  if t = 0 then 0
  else if t = 1 then 1
  else if t < 1 / 2 then (2 : ℝ) ^ (20 * t - 10) / 2
  else (2 - (2 : ℝ) ^ (-20 * t + 10)) / 2

/-- `ease` of `scale-v1.js`: dispatch on the easing name; the `default`
branch (an unrecognized name) falls back to linear. -/
noncomputable def ease (easingType : EasingType) (t : ℝ) : ℝ :=
  match easingType with
  | .linear => easeLinear t
  | .easeInSine => easeInSine t
  | .easeOutSine => easeOutSine t
  | .easeInOutSine => easeInOutSine t
  | .easeInQuad => easeInQuad t
  | .easeOutQuad => easeOutQuad t
  | .easeInOutQuad => easeInOutQuad t
  | .easeInCubic => easeInCubic t
  | .easeOutCubic => easeOutCubic t
  | .easeInOutCubic => easeInOutCubic t
  | .easeInQuart => easeInQuart t
  | .easeOutQuart => easeOutQuart t
  | .easeInOutQuart => easeInOutQuart t
  | .easeInQuint => easeInQuint t
  | .easeOutQuint => easeOutQuint t
  | .easeInOutQuint => easeInOutQuint t
  | .easeInExpo => easeInExpo t
  | .easeOutExpo => easeOutExpo t
  | .easeInOutExpo => easeInOutExpo t
  | .unknown => easeLinear t

/-- An easing specification of a flat curve array, already split at the
optional `:` of strings such as `"linear:0.5"`: the recognized name (or
`unknown`) and the parsed rate, `none` when no rate suffix was given. -/
structure EasingSpec where
  name : EasingType
  rate : Option ℝ

/-- A flat curve specification, the alternating array
`[easingSpec, boundary, easingSpec, boundary, ...]` of `scale-v1.js`
re-grouped into `(easingSpec, boundary)` pairs read two entries at a
time; the boundary is `none` when the array ends right after the spec
(an odd-length array). -/
abbrev CurveDef := List (EasingSpec × Option ℕ)

/-- A parsed curve segment (`parseCurveDefinition` output of
`scale-v1.js`): resolved start/end step labels, easing name and rate. -/
structure Segment where
  startStep : ℕ
  endStep : ℕ
  easingType : EasingType
  rate : ℝ

/-- `parseCurveDefinition` of `scale-v1.js`: consume `(easingSpec,
boundary)` pairs left to right; a missing boundary (`curveDefinition[i+1]`
is `undefined`, so `|| 950` fires) defaults to `950`; a missing rate
suffix defaults to `1.0`; each segment starts at the previous segment's
end, the first at `startStep`. -/
def parseCurveDefinition : CurveDef → ℕ → List Segment
  | [], _ => []
  | (easingSpec, boundary) :: rest, currentStep =>
    let endStep := boundary.getD 950
    { startStep := currentStep, endStep := endStep,
      easingType := easingSpec.name, rate := easingSpec.rate.getD 1 } ::
      parseCurveDefinition rest endStep

/-- A parsed segment together with the step-table indices of its
boundaries (the `.map` enriching segments inside `evaluateCurveSegment`);
an index is `-1` when the boundary label is not in the step table. -/
structure ISegment where
  startIndex : ℤ
  endIndex : ℤ
  easingType : EasingType
  rate : ℝ

/-- The segment list of `evaluateCurveSegment` of `scale-v1.js`:
`parseCurveDefinition(curveDefinition, allSteps[startIndex])` with each
segment's boundary labels resolved to step-table indices via `indexOf`. -/
def indexedSegments (steps : List ℕ) (curveDefinition : CurveDef) (startStep : ℕ) :
    List ISegment :=
  (parseCurveDefinition curveDefinition startStep).map fun seg =>
    { startIndex := jsIndexOf steps seg.startStep,
      endIndex := jsIndexOf steps seg.endStep,
      easingType := seg.easingType, rate := seg.rate }

/-- Sum of the rates of a segment list (`totalRate` and the running
`accumulatedRate` of `evaluateCurveSegment`). -/
def sumRates (l : List ISegment) : ℝ := (l.map ISegment.rate).sum

/-- A step index is contained in a segment's closed index span (the
guard of the segment scan of `evaluateCurveSegment`). -/
abbrev segContains (seg : ISegment) (stepIndex : ℤ) : Prop :=
  seg.startIndex ≤ stepIndex ∧ stepIndex ≤ seg.endIndex

/-- Well-formedness of an index-enriched segment list for a half-range
ending at index `hi`, read from current index `cur`: each segment starts
where the previous ended, boundaries strictly increase, stay within the
half, rates are positive, and the last boundary is exactly `hi`.  This
is the spec's CurveDefinition invariant (segments tile the half-range,
positive rates). -/
def WFfrom (hi : ℤ) : ℤ → List ISegment → Prop
  | cur, [] => cur = hi
  | cur, seg :: rest =>
    seg.startIndex = cur ∧ cur < seg.endIndex ∧ seg.endIndex ≤ hi ∧ 0 < seg.rate ∧
      WFfrom hi seg.endIndex rest

/-- A curve definition well formed for the half of the step table that
spans indices `lo..hi`. -/
def WFCurve (cd : CurveDef) (lo hi : ℕ) : Prop :=
  WFfrom (hi : ℤ) (lo : ℤ) (indexedSegments allSteps cd (allSteps.getD lo 0))

/-- A curve option acceptable for the half `lo..hi`: absent or empty
(both fall back to plain linear interpolation) or well formed. -/
def OkCurve (oc : Option CurveDef) (lo hi : ℕ) : Prop :=
  match oc with
  | none => True
  | some cd => cd = [] ∨ WFCurve cd lo hi

/-- The `for (const segment of segments)` loop of `evaluateCurveSegment`
of `scale-v1.js`, with the accumulated rate as an explicit argument:
the first segment whose index span contains `stepIndex` produces the
rate-weighted eased value; when none does, the fallthrough returns
`endValue`. -/
noncomputable def evalSegLoop (stepIndex : ℤ) (totalRate startValue endValue : ℝ) :
    List ISegment → ℝ → ℝ
  | [], _ => endValue
  | seg :: rest, accumulatedRate =>
    let segSpan : ℤ := seg.endIndex - seg.startIndex
    if seg.startIndex ≤ stepIndex ∧ stepIndex ≤ seg.endIndex then
      let localT : ℝ :=
        if segSpan = 0 then 0
        else ((stepIndex : ℝ) - (seg.startIndex : ℝ)) / (segSpan : ℝ)
      let easedT := ease seg.easingType localT
      let progressBefore := accumulatedRate / totalRate
      let progressInSeg := (seg.rate / totalRate) * easedT
      startValue + (endValue - startValue) * (progressBefore + progressInSeg)
    else
      evalSegLoop stepIndex totalRate startValue endValue rest (accumulatedRate + seg.rate)

/-- `evaluateCurveSegment` of `scale-v1.js`.  `curveDefinition = none`
models a null/undefined curve; a null or empty curve falls back to
linear interpolation across the half span, otherwise the parsed,
index-enriched segments are scanned with rate weighting. -/
noncomputable def evaluateCurveSegment (step : ℕ) (curveDefinition : Option CurveDef)
    (startValue endValue : ℝ) (steps : List ℕ) (startIndex endIndex : ℕ) : ℝ :=
  let stepIndex := jsIndexOf steps step
  match curveDefinition with
  | none =>
    startValue + (endValue - startValue) *
      (((stepIndex : ℝ) - (startIndex : ℝ)) / ((endIndex : ℝ) - (startIndex : ℝ)))
  | some cd =>
    if cd.isEmpty then
      startValue + (endValue - startValue) *
        (((stepIndex : ℝ) - (startIndex : ℝ)) / ((endIndex : ℝ) - (startIndex : ℝ)))
    else
      let segments := indexedSegments steps cd (steps.getD startIndex 0)
      let totalRate := sumRates segments
      evalSegLoop stepIndex totalRate startValue endValue segments 0

/-- `evaluatePiecewiseCurve` of `scale-v1.js`: a step label missing from
the table yields the base value; the pivot (index 6) short-circuits to
the base value; indices below the pivot use the tint curve over indices
0..6, the rest the shade curve over indices 6..12. -/
noncomputable def evaluatePiecewiseCurve (step : ℕ) (tintCurve shadeCurve : Option CurveDef)
    (startValue baseValue endValue : ℝ) : ℝ :=
  let stepIndex := jsIndexOf allSteps step
  if stepIndex = -1 then baseValue
  else
    let baseIndex := jsIndexOf allSteps 500
    if stepIndex = baseIndex then baseValue
    else if stepIndex < baseIndex then
      evaluateCurveSegment step tintCurve startValue baseValue allSteps 0 baseIndex.toNat
    else
      evaluateCurveSegment step shadeCurve baseValue endValue allSteps baseIndex.toNat
        (allSteps.length - 1)

/-- Truncation toward zero, the rounding of the JavaScript `%` operator. -/
noncomputable def jsTrunc (x : ℝ) : ℤ := if 0 ≤ x then ⌊x⌋ else ⌈x⌉

/-- The JavaScript remainder `a % b`: `a - b * trunc(a / b)`, whose sign
follows the dividend. -/
noncomputable def jsMod (a b : ℝ) : ℝ := a - b * (jsTrunc (a / b) : ℝ)

/-- `wrapHue` of `scale-v1.js`: `((h % 360) + 360) % 360`. -/
noncomputable def wrapHue (h : ℝ) : ℝ := jsMod (jsMod h 360 + 360) 360

/-- An OKhsl triple `{h, s, l}` as produced by the external conversion
`oklchToOKhsl`. -/
structure OKhsl where
  h : ℝ
  s : ℝ
  l : ℝ

/-- An OKLCH triple `{L, C, H}`, the output unit of `scale-v1.js`. -/
structure OKLCH where
  L : ℝ
  C : ℝ
  H : ℝ

/-- The configuration record of `generatePerceptuallyUniformScale` of
`scale-v1.js`.  The legacy `lightnessCurve` / `saturationCurve` /
`hueCurve` options are omitted: the function body never reads them.
`none` for a curve models an undefined curve option (the declared
defaults `defaultCurves.tintLightnessCurve` etc. are undefined, since
`defaultCurves` carries no such keys); `shadePeakStep = none` and
`shadeBoost = none` model the `null` defaults. -/
structure ConfigA where
  baseL : ℝ
  baseC : ℝ
  baseH : ℝ
  startL : ℝ
  endL : ℝ
  startS : ℝ
  endS : ℝ
  startHueShift : ℝ
  endHueShift : ℝ
  tintLightnessCurve : Option CurveDef := none
  tintSaturationCurve : Option CurveDef := none
  tintHueCurve : Option CurveDef := none
  shadeLightnessCurve : Option CurveDef := none
  shadeSaturationCurve : Option CurveDef := none
  shadeHueCurve : Option CurveDef := none
  shadePeakStep : Option ℕ := none
  shadeBoost : Option ℝ := none

/-- The peak-based override of `generatePerceptuallyUniformScale`
(`scale-v1.js` lines 354-380): the `(Si, hueShift)` pair for a shade
step when the peak boost is active.  Exactly at the peak the pair is
`(baseSaturation * boost, boostedPeakHueShift)`; before the peak both
rise from their base/zero values with an ease-out sine; after the peak
both fall toward `endS` / `endHueShift` with an ease-in sine. -/
noncomputable def peakOverride (baseSaturation endS startHueShift endHueShift : ℝ)
    (shadePeakStep : ℕ) (shadeBoost : ℝ) (step : ℕ) : ℝ × ℝ :=
  let peakSaturation := baseSaturation * shadeBoost
  let normalProgressToPeak := ((shadePeakStep : ℝ) - 500) / (950 - 500)
  let peakHueShift := startHueShift + (endHueShift - startHueShift) * normalProgressToPeak
  let boostedPeakHueShift := peakHueShift * shadeBoost
  if step = shadePeakStep then
    (peakSaturation, boostedPeakHueShift)
  else if step < shadePeakStep then
    let t := ((step : ℝ) - 500) / ((shadePeakStep : ℝ) - 500)
    let eased := easeOutSine t
    (baseSaturation + (peakSaturation - baseSaturation) * eased,
     0 + boostedPeakHueShift * eased)
  else
    let t := ((step : ℝ) - (shadePeakStep : ℝ)) / (950 - (shadePeakStep : ℝ))
    let eased := easeInSine t
    (peakSaturation + (endS - peakSaturation) * eased,
     boostedPeakHueShift + (endHueShift - boostedPeakHueShift) * eased)

/-- The `(Si, hueShift)` pair of one loop iteration of
`generatePerceptuallyUniformScale`: the peak-based override applies when
`shadePeakStep` and `shadeBoost` are both supplied and truthy (non-null,
non-zero) and the step lies beyond the pivot; otherwise both channels
come from their piecewise curves (saturation between `startS`,
`baseSaturation`, `endS`; hue shift between `startHueShift`, `0`,
`endHueShift`). -/
noncomputable def satHueAt (cfg : ConfigA) (baseSaturation : ℝ) (step : ℕ) : ℝ × ℝ :=
  let normal : ℝ × ℝ :=
    (evaluatePiecewiseCurve step cfg.tintSaturationCurve cfg.shadeSaturationCurve
        cfg.startS baseSaturation cfg.endS,
     evaluatePiecewiseCurve step cfg.tintHueCurve cfg.shadeHueCurve
        cfg.startHueShift 0 cfg.endHueShift)
  match cfg.shadePeakStep, cfg.shadeBoost with
  | some p, some boost =>
    if p ≠ 0 ∧ boost ≠ 0 ∧ 500 < step then
      peakOverride baseSaturation cfg.endS cfg.startHueShift cfg.endHueShift p boost step
    else normal
  | _, _ => normal

/-- One iteration of the generation loop of
`generatePerceptuallyUniformScale` of `scale-v1.js`: step 500 yields the
exact base triple; otherwise lightness comes from its piecewise curve,
saturation and hue shift from `satHueAt`, the hue is wrapped, and a zero
resolved saturation forces the chroma to 0 instead of converting (the
NaN guards of the source are unrepresentable over the reals and are not
modelled). -/
noncomputable def scaleSample (okhslToOKLCH : ℝ → ℝ → ℝ → OKLCH) (cfg : ConfigA)
    (baseOKhsl : OKhsl) (step : ℕ) : OKLCH :=
  if step = 500 then { L := cfg.baseL, C := cfg.baseC, H := cfg.baseH }
  else
    let baseSaturation := baseOKhsl.s
    let Li := evaluatePiecewiseCurve step cfg.tintLightnessCurve cfg.shadeLightnessCurve
      cfg.startL cfg.baseL cfg.endL
    let SiHue := satHueAt cfg baseSaturation step
    let Si := SiHue.1
    let hueShift := SiHue.2
    let Hi := wrapHue (cfg.baseH + hueShift)
    let Ci := if Si = 0 then 0 else (okhslToOKLCH (Hi / 360) Si baseOKhsl.l).C
    { L := Li, C := Ci, H := Hi }

/-- `generatePerceptuallyUniformScale` of `scale-v1.js`, parameterized
over the two external color-space conversions: convert the base OKLCH
triple to OKhsl for the reference saturation, then generate one sample
per step of the table. -/
noncomputable def generatePerceptuallyUniformScale
    (oklchToOKhsl : ℝ → ℝ → ℝ → OKhsl) (okhslToOKLCH : ℝ → ℝ → ℝ → OKLCH)
    (cfg : ConfigA) : List OKLCH :=
  let baseOKhsl := oklchToOKhsl cfg.baseL cfg.baseC cfg.baseH
  allSteps.map (scaleSample okhslToOKLCH cfg baseOKhsl)

/-- The saturation profile of the shade half while the peak boost is
active: for a step beyond the pivot it is the saturation component of
`peakOverride` (whose value does not depend on the hue-shift anchors,
passed as 0 here); at the pivot itself the generator short-circuits to
the exact base triple, whose OKhsl saturation is the reference
`baseSaturation`. -/
noncomputable def shadeBoostSat (baseSaturation endS : ℝ) (shadePeakStep : ℕ)
    (shadeBoost : ℝ) (step : ℕ) : ℝ :=
  if step = 500 then baseSaturation
  else (peakOverride baseSaturation endS 0 0 shadePeakStep shadeBoost step).1

end ColorScale

namespace ScaleV2

/-- The 13 step labels of `scale-v2.js` (`STEPS`). -/
def STEPS : List ℕ := [50, 100, 150, 200, 300, 400, 500, 600, 700, 800, 850, 900, 950]

/-- A sparse JavaScript object with numeric keys and numeric values,
modelled as an association list with the object's key order; keys are
step labels.  JavaScript objects cannot hold a key twice, so lists with
duplicate keys are outside the model. -/
abbrev NumMap := List (ℕ × ℝ)

/-- Property lookup `m[k]` on such an object: the value of the first
entry with key `k`. -/
def numLookup (m : NumMap) (k : ℕ) : Option ℝ := m.lookup k

/-- Property assignment `m[k] = v` (also the effect of a literal key
after an object spread): overwrite the entry in place when the key
exists, append otherwise. -/
def objSet (m : NumMap) (k : ℕ) (v : ℝ) : NumMap :=
  if m.any (fun p => p.1 == k) then
    m.map fun p => if p.1 == k then (k, v) else p
  else m ++ [(k, v)]

/-- `mapValuesToSteps` of `scale-v2.js`: keep the entries whose key is a
valid step of `availableSteps`, discard (and warn about) the rest. -/
def mapValuesToSteps (values : NumMap) (availableSteps : List ℕ) : NumMap :=
  values.filter fun p => availableSteps.contains p.1

/-- The sorted key list of `interpolateValue`:
`Object.keys(controlPoints).map(Number).sort((a, b) => a - b)`. -/
def sortedSteps (controlPoints : NumMap) : List ℕ :=
  List.insertionSort (· ≤ ·) (controlPoints.map Prod.fst)

/-- The bracketing scan of `interpolateValue`: walk consecutive pairs of
the sorted key list and return the first pair `(steps[i], steps[i+1])`
whose closed interval contains `step`, if any. -/
def findBracket (step : ℕ) : List ℕ → Option (ℕ × ℕ)
  | a :: b :: rest =>
    if a ≤ step ∧ step ≤ b then some (a, b) else findBracket step (b :: rest)
  | _ => none

/-- The value stored for key `k` (the keys fed to this always come from
the map itself, so the default is never read). -/
noncomputable def cpGet (controlPoints : NumMap) (k : ℕ) : ℝ :=
  (numLookup controlPoints k).getD 0

/-- `interpolateValue` of `scale-v2.js`: an exact control point is
returned verbatim; otherwise the first bracketing pair of the sorted
keys interpolates linearly by numeric label distance; with no bracketing
pair the nearest boundary value is returned (`step` below the smallest
key clamps to its value, otherwise to the largest key's value). -/
noncomputable def interpolateValue (step : ℕ) (controlPoints : NumMap) : ℝ :=
  match numLookup controlPoints step with
  | some v => v
  | none =>
    let steps := sortedSteps controlPoints
    match findBracket step steps with
    | some (a, b) =>
      let t := ((step : ℝ) - (a : ℝ)) / ((b : ℝ) - (a : ℝ))
      cpGet controlPoints a + (cpGet controlPoints b - cpGet controlPoints a) * t
    | none =>
      if step < steps.headD 0 then cpGet controlPoints (steps.headD 0)
      else cpGet controlPoints (steps.getLastD 0)

/-- `wrapHue` of `scale-v2.js`: `hue % 360`, plus 360 when negative. -/
noncomputable def wrapHue (hue : ℝ) : ℝ :=
  let m := ColorScale.jsMod hue 360
  if m < 0 then m + 360 else m

/-- An `oklch` coordinate triple of the external `colorjs.io` conversion:
`coords[0]` (lightness, 0..1 scale), `coords[1]` (chroma) and
`coords[2]` (hue in degrees), the hue being undefined (`none`) for
achromatic colors. -/
structure OklchCoords where
  L : ℝ
  C : ℝ
  H : Option ℝ

/-- The configuration record of `generateScale` of `scale-v2.js`: base
OKhsl color (hue in degrees, saturation/lightness in percent), the two
absolute lightness anchors, and the three sparse progression maps. -/
structure ConfigB where
  baseHue : ℝ
  baseSaturation : ℝ
  baseLightness : ℝ
  startL : ℝ := 98
  endL : ℝ := 9.5
  hueProgression : NumMap := []
  saturationProgression : NumMap := []
  lightnessProgression : NumMap := []

/-- The `hueControls` object of `generateScale`: the validated hue
progression spread first, then the literal `500: 0` (so the pivot's
shift is 0 whatever the progression said). -/
def hueControls (cfg : ConfigB) : NumMap :=
  objSet (mapValuesToSteps cfg.hueProgression STEPS) 500 0

/-- The `satControls` object of `generateScale`: each validated relative
percentage becomes `baseSaturation * (percent / 100)`, then the literal
`500: baseSaturation`. -/
noncomputable def satControls (cfg : ConfigB) : NumMap :=
  objSet ((mapValuesToSteps cfg.saturationProgression STEPS).map fun p =>
    (p.1, cfg.baseSaturation * (p.2 / 100))) 500 cfg.baseSaturation

/-- The `lightControls` object of `generateScale`: the three anchors
`{50: startL, 500: baseLightness, 950: endL}`, then one assignment per
validated lightness progression entry - a tint entry (key < 500) becomes
`startL + (percent / 100) * (baseLightness - startL)`, a shade entry
(key > 500) becomes `baseLightness + (percent / 100) * (endL -
baseLightness)`, a 500 entry is skipped.  Note entries at keys 50 and
950 do land in the loop and overwrite the anchors. -/
noncomputable def lightControls (cfg : ConfigB) : NumMap :=
  let tintRange := cfg.baseLightness - cfg.startL
  let shadeRange := cfg.endL - cfg.baseLightness
  (mapValuesToSteps cfg.lightnessProgression STEPS).foldl
    (fun acc p =>
      if p.1 < 500 then objSet acc p.1 (cfg.startL + (p.2 / 100) * tintRange)
      else if 500 < p.1 then objSet acc p.1 (cfg.baseLightness + (p.2 / 100) * shadeRange)
      else acc)
    [(50, cfg.startL), (500, cfg.baseLightness), (950, cfg.endL)]

/-- The OKhsl triple resolved for one step inside the generation loop of
`generateScale`: interpolated hue shift added to the base hue and
wrapped, interpolated saturation and lightness scaled from percent to
0..1.  These are exactly the arguments handed to the okhsl-to-oklch
conversion. -/
noncomputable def resolveStep (cfg : ConfigB) (step : ℕ) : ColorScale.OKhsl :=
  let hueShift := interpolateValue step (hueControls cfg)
  let H := wrapHue (cfg.baseHue + hueShift)
  let S := interpolateValue step (satControls cfg) / 100
  let L := interpolateValue step (lightControls cfg) / 100
  { h := H, s := S, l := L }

/-- The pre-conversion stage of `generateScale` of `scale-v2.js`: the
OKhsl triple resolved for each of the 13 steps in table order. -/
noncomputable def generateScaleOkhsl (cfg : ConfigB) : List ColorScale.OKhsl :=
  STEPS.map (resolveStep cfg)

/-- The post-conversion push of the generation loop of `generateScale`:
convert a resolved OKhsl triple to oklch coordinates, rescale the
lightness to percent, and coerce an undefined hue (achromatic color) to
0 - the `?? 0` of the source. -/
noncomputable def mkOklchSample (conv : ℝ → ℝ → ℝ → OklchCoords) (o : ColorScale.OKhsl) :
    ColorScale.OKLCH :=
  { L := (conv o.h o.s o.l).L * 100,
    C := (conv o.h o.s o.l).C,
    H := ((conv o.h o.s o.l).H).getD 0 }

/-- `generateScale` of `scale-v2.js`, parameterized over the external
okhsl-to-oklch conversion (`new Color("okhsl", [H, S, L]).to("oklch")`):
one converted sample per resolved OKhsl triple, in step order. -/
noncomputable def generateScale (conv : ℝ → ℝ → ℝ → OklchCoords) (cfg : ConfigB) :
    List ColorScale.OKLCH :=
  (generateScaleOkhsl cfg).map (mkOklchSample conv)

end ScaleV2

namespace ColorsUtilities

/-- `findFirstContrastyShade` of `colors-utilities.js`: scan the colors
in index order and return the index of the first whose contrast metric
value reaches `targetLc`, or `-1` when none does.  The metric
(`getContrastAgainstWhite` and its APCA variant in the source) is an
abstract function parameter. -/
noncomputable def findFirstContrastyShade {α : Type} (contrast : α → ℝ) (targetLc : ℝ) :
    List α → ℤ
  | [] => -1
  | hex :: rest =>
    if targetLc ≤ contrast hex then 0
    else
      let r := findFirstContrastyShade contrast targetLc rest
      if r = -1 then -1 else r + 1

end ColorsUtilities

namespace ColorScale

lemma jsTrunc_of_nonneg {x : ℝ} (h : 0 ≤ x) : jsTrunc x = ⌊x⌋ := by
  simp [jsTrunc, h]

lemma jsTrunc_of_neg {x : ℝ} (h : x < 0) : jsTrunc x = ⌈x⌉ := by
  simp [jsTrunc, not_le.mpr h]

lemma jsMod360_lt (a : ℝ) : jsMod a 360 < 360 := by
  unfold jsMod
  rcases le_or_lt 0 (a / 360) with hq | hq
  · rw [jsTrunc_of_nonneg hq]
    have h2 : a / 360 < ⌊a / 360⌋ + 1 := Int.lt_floor_add_one _
    have key : 360 * (a / 360) = a := by ring
    nlinarith [h2]
  · rw [jsTrunc_of_neg hq]
    have h1 : a / 360 ≤ ⌈a / 360⌉ := Int.le_ceil _
    have key : 360 * (a / 360) = a := by ring
    nlinarith [h1]

lemma jsMod360_neg_lt (a : ℝ) : -360 < jsMod a 360 := by
  unfold jsMod
  rcases le_or_lt 0 (a / 360) with hq | hq
  · rw [jsTrunc_of_nonneg hq]
    have h1 : (⌊a / 360⌋ : ℝ) ≤ a / 360 := Int.floor_le _
    have key : 360 * (a / 360) = a := by ring
    nlinarith [h1]
  · rw [jsTrunc_of_neg hq]
    have h2 : (⌈a / 360⌉ : ℝ) < a / 360 + 1 := Int.ceil_lt_add_one _
    have key : 360 * (a / 360) = a := by ring
    nlinarith [h2]

lemma jsMod360_nonneg {a : ℝ} (h : 0 ≤ a) : 0 ≤ jsMod a 360 := by
  unfold jsMod
  have hq : 0 ≤ a / 360 := by positivity
  rw [jsTrunc_of_nonneg hq]
  have h1 : (⌊a / 360⌋ : ℝ) ≤ a / 360 := Int.floor_le _
  have key : 360 * (a / 360) = a := by ring
  nlinarith [h1]

lemma jsMod360_eq_self {a : ℝ} (h0 : 0 ≤ a) (h1 : a < 360) : jsMod a 360 = a := by
  unfold jsMod
  have hq : 0 ≤ a / 360 := by positivity
  rw [jsTrunc_of_nonneg hq]
  have hfl : ⌊a / 360⌋ = 0 := by
    rw [Int.floor_eq_zero_iff]
    constructor
    · exact hq
    · rw [div_lt_one (by norm_num : (0:ℝ) < 360)] at *
      linarith
  rw [hfl]
  push_cast
  ring

lemma jsMod360_add_360 {a : ℝ} (h0 : 0 ≤ a) (h1 : a < 360) : jsMod (a + 360) 360 = a := by
  unfold jsMod
  have hq : 0 ≤ (a + 360) / 360 := by positivity
  rw [jsTrunc_of_nonneg hq]
  have hsplit : (a + 360) / 360 = a / 360 + 1 := by ring
  have hfl0 : ⌊a / 360⌋ = 0 := by
    rw [Int.floor_eq_zero_iff]
    constructor
    · positivity
    · rw [div_lt_one (by norm_num : (0:ℝ) < 360)]
      linarith
  have hfl : ⌊(a + 360) / 360⌋ = 1 := by
    rw [hsplit, Int.floor_add_one, hfl0]
    norm_num
  rw [hfl]
  push_cast
  ring

lemma wrapHue_mem (h : ℝ) : 0 ≤ wrapHue h ∧ wrapHue h < 360 := by
  unfold wrapHue
  have hpos : 0 ≤ jsMod h 360 + 360 := by
    have := jsMod360_neg_lt h
    linarith
  exact ⟨jsMod360_nonneg hpos, jsMod360_lt _⟩

lemma wrapHue_eq_self {h : ℝ} (h0 : 0 ≤ h) (h1 : h < 360) : wrapHue h = h := by
  unfold wrapHue
  rw [jsMod360_eq_self h0 h1, jsMod360_add_360 h0 h1]

lemma wrapHueV2_mem (h : ℝ) : 0 ≤ ScaleV2.wrapHue h ∧ ScaleV2.wrapHue h < 360 := by
  unfold ScaleV2.wrapHue
  rcases lt_or_le (jsMod h 360) 0 with hm | hm
  · rw [if_pos hm]
    have := jsMod360_neg_lt h
    constructor <;> linarith
  · rw [if_neg (not_lt.mpr hm)]
    exact ⟨hm, jsMod360_lt h⟩

lemma wrapHueV2_eq_self {h : ℝ} (h0 : 0 ≤ h) (h1 : h < 360) : ScaleV2.wrapHue h = h := by
  unfold ScaleV2.wrapHue
  rw [jsMod360_eq_self h0 h1, if_neg (not_lt.mpr h0)]

end ColorScale

namespace ColorsUtilities

lemma findFirstContrastyShade_ge {α : Type} (contrast : α → ℝ) (targetLc : ℝ) :
    ∀ l : List α, -1 ≤ findFirstContrastyShade contrast targetLc l := by
  intro l
  induction l with
  | nil => simp [findFirstContrastyShade]
  | cons a rest ih =>
    rw [findFirstContrastyShade]
    split
    · norm_num
    · dsimp only
      split
      · norm_num
      · omega

end ColorsUtilities

/-- Claim C7: for every real input `h` (negative and large inputs
included), both `wrapHue` of `scale-v1.js` and `wrapHue` of
`scale-v2.js` return a value in `[0, 360)`, and both are idempotent. -/
theorem C7_wrapHue_range_and_idempotent (h : ℝ) :
    (0 ≤ ColorScale.wrapHue h ∧ ColorScale.wrapHue h < 360 ∧
      ColorScale.wrapHue (ColorScale.wrapHue h) = ColorScale.wrapHue h) ∧
    (0 ≤ ScaleV2.wrapHue h ∧ ScaleV2.wrapHue h < 360 ∧
      ScaleV2.wrapHue (ScaleV2.wrapHue h) = ScaleV2.wrapHue h) := by
  obtain ⟨a0, a1⟩ := ColorScale.wrapHue_mem h
  obtain ⟨b0, b1⟩ := ColorScale.wrapHueV2_mem h
  exact ⟨⟨a0, a1, ColorScale.wrapHue_eq_self a0 a1⟩,
    ⟨b0, b1, ColorScale.wrapHueV2_eq_self b0 b1⟩⟩

/-- Claim C9: the first-meeting-threshold scan returns `-1` exactly when
no color's contrast metric value reaches the threshold; whenever it
returns a natural index `i`, the color at `i` reaches the threshold and
every earlier color does not (so the result is the smallest qualifying
index, found scanning in ascending order); and it returns `0` as soon as
the color at index 0 already qualifies. -/
theorem C9_findFirstContrastyShade_spec {α : Type} (contrast : α → ℝ) (targetLc : ℝ)
    (hexValues : List α) :
    (ColorsUtilities.findFirstContrastyShade contrast targetLc hexValues = -1 ↔
      ∀ c ∈ hexValues, contrast c < targetLc) ∧
    (∀ i : ℕ, ColorsUtilities.findFirstContrastyShade contrast targetLc hexValues = i →
      ∃ hi : i < hexValues.length,
        targetLc ≤ contrast (hexValues.get ⟨i, hi⟩) ∧
        ∀ j (hj : j < i), contrast (hexValues.get ⟨j, hj.trans hi⟩) < targetLc) ∧
    (∀ c rest, hexValues = c :: rest → targetLc ≤ contrast c →
      ColorsUtilities.findFirstContrastyShade contrast targetLc hexValues = 0) := by
  induction hexValues with
  | nil =>
    refine ⟨by simp [ColorsUtilities.findFirstContrastyShade], ?_, ?_⟩
    · intro i hi
      rw [ColorsUtilities.findFirstContrastyShade] at hi
      omega
    · intro c rest hcr
      exact absurd hcr (by simp)
  | cons a rest ih =>
    by_cases ha : targetLc ≤ contrast a
    · refine ⟨?_, ?_, ?_⟩
      · rw [ColorsUtilities.findFirstContrastyShade, if_pos ha]
        constructor
        · intro h0
          omega
        · intro hall
          exact absurd ha (not_le.mpr (hall a (List.mem_cons_self a rest)))
      · intro i hi
        rw [ColorsUtilities.findFirstContrastyShade, if_pos ha] at hi
        have hi0 : i = 0 := by omega
        subst hi0
        exact ⟨Nat.succ_pos _, by simpa using ha, fun j hj => absurd hj (Nat.not_lt_zero j)⟩
      · intro c r hcr hc
        rw [ColorsUtilities.findFirstContrastyShade, if_pos ha]
    · have huf : ColorsUtilities.findFirstContrastyShade contrast targetLc (a :: rest) =
          (if ColorsUtilities.findFirstContrastyShade contrast targetLc rest = -1 then -1
           else ColorsUtilities.findFirstContrastyShade contrast targetLc rest + 1) := by
        rw [ColorsUtilities.findFirstContrastyShade, if_neg ha]
      by_cases hrec : ColorsUtilities.findFirstContrastyShade contrast targetLc rest = -1
      · rw [hrec, if_pos rfl] at huf
        refine ⟨?_, ?_, ?_⟩
        · rw [huf]
          constructor
          · intro _
            intro c hc
            rcases List.mem_cons.mp hc with h1 | h2
            · subst h1
              exact not_le.mp ha
            · exact (ih.1.mp hrec) c h2
          · intro _
            rfl
        · intro i hi
          rw [huf] at hi
          omega
        · intro c r hcr hc
          obtain ⟨rfl, rfl⟩ : c = a ∧ r = rest := by
            injection hcr with h1 h2
            exact ⟨h1.symm, h2.symm⟩
          exact absurd hc ha
      · rw [if_neg hrec] at huf
        obtain ⟨n, hn⟩ : ∃ n : ℕ,
            ColorsUtilities.findFirstContrastyShade contrast targetLc rest = n := by
          have hge := ColorsUtilities.findFirstContrastyShade_ge contrast targetLc rest
          refine ⟨(ColorsUtilities.findFirstContrastyShade contrast targetLc rest).toNat, ?_⟩
          omega
        obtain ⟨hlen, hmet, hprev⟩ := ih.2.1 n hn
        refine ⟨?_, ?_, ?_⟩
        · rw [huf, hn]
          constructor
          · intro habs
            omega
          · intro hall
            exact absurd (hall (rest.get ⟨n, hlen⟩)
              (List.mem_cons_of_mem a (rest.get_mem _ _))) (not_lt.mpr hmet)
        · intro i hi
          rw [huf, hn] at hi
          have hin : i = n + 1 := by omega
          subst hin
          refine ⟨Nat.succ_lt_succ hlen, by simpa using hmet, ?_⟩
          intro j hj
          cases j with
          | zero => simpa using not_le.mp ha
          | succ k =>
            have hk : k < n := Nat.lt_of_succ_lt_succ hj
            simpa using hprev k hk
        · intro c r hcr hc
          obtain ⟨rfl, rfl⟩ : c = a ∧ r = rest := by
            injection hcr with h1 h2
            exact ⟨h1.symm, h2.symm⟩
          exact absurd hc ha

/-- Witness for claim C9: on the concrete ramp `[8, 2]` with the
identity metric and threshold 7 the scan returns index 0, by the third
conjunct of the specification theorem at that input. -/
theorem C9_findFirstContrastyShade_witness :
    ColorsUtilities.findFirstContrastyShade (fun x : ℝ => x) 7 [(8 : ℝ), 2] = 0 :=
  (C9_findFirstContrastyShade_spec (fun x : ℝ => x) 7 [(8 : ℝ), 2]).2.2 8 [2] rfl
    (by norm_num)

namespace ColorScale

lemma parseCurveDefinition_ne_nil (p : EasingSpec × Option ℕ) (rest : CurveDef)
    (startStep : ℕ) : parseCurveDefinition (p :: rest) startStep ≠ [] := by
  obtain ⟨s, b⟩ := p
  simp [parseCurveDefinition]

end ColorScale

/-- Counterexample for claim C5: the tint-half flat curve consisting of a
single easing spec with no trailing boundary is parsed (from the tint
half's start label 50) into a segment ending at label 950 - not at label
500, the final index of the tint half, as the claim states. -/
theorem C5_counterexample :
    (ColorScale.parseCurveDefinition
        [({ name := ColorScale.EasingType.linear, rate := none }, none)] 50).map
      ColorScale.Segment.endStep = [950] ∧ (950 : ℕ) ≠ 500 := by
  constructor
  · rfl
  · decide

/-- Claim C5 (amended): when the final easing spec of a flat curve
specification has no trailing boundary, the Curve Parser assigns that
last segment the end boundary 950 - the final label of the shade half -
unconditionally, whatever half (i.e. whatever start label) is being
parsed; the tint half does not get 500. -/
theorem C5_parse_missing_trailing_boundary (l : ColorScale.CurveDef)
    (spec : ColorScale.EasingSpec) (startStep : ℕ) :
    ((ColorScale.parseCurveDefinition (l ++ [(spec, none)]) startStep).getLast?).map
      ColorScale.Segment.endStep = some 950 := by
  induction l generalizing startStep with
  | nil => rfl
  | cons p rest ih =>
    obtain ⟨s, b⟩ := p
    rw [List.cons_append]
    rw [show ColorScale.parseCurveDefinition (((s, b) : ColorScale.EasingSpec × Option ℕ) ::
        (rest ++ [(spec, none)])) startStep =
        { startStep := startStep, endStep := b.getD 950, easingType := s.name,
          rate := s.rate.getD 1 } ::
          ColorScale.parseCurveDefinition (rest ++ [(spec, none)]) (b.getD 950) from rfl]
    rcases hr : ColorScale.parseCurveDefinition (rest ++ [(spec, none)]) (b.getD 950) with
      _ | ⟨q, qs⟩
    · exact absurd hr (by
        cases rest with
        | nil => exact ColorScale.parseCurveDefinition_ne_nil _ _ _
        | cons p2 r2 => exact ColorScale.parseCurveDefinition_ne_nil _ _ _)
    · rw [List.getLast?_cons_cons]
      have hih := ih (b.getD 950)
      rw [hr] at hih
      exact hih

namespace ColorScale

lemma sumRates_nil : sumRates [] = 0 := rfl

lemma sumRates_cons (s : ISegment) (l : List ISegment) :
    sumRates (s :: l) = s.rate + sumRates l := by
  simp [sumRates]

lemma evalSegLoop_cons_pos (stepIndex : ℤ) (totalRate sv ev : ℝ) (seg : ISegment)
    (rest : List ISegment) (acc : ℝ) (h : segContains seg stepIndex) :
    evalSegLoop stepIndex totalRate sv ev (seg :: rest) acc =
      sv + (ev - sv) * (acc / totalRate + (seg.rate / totalRate) *
        ease seg.easingType
          (if seg.endIndex - seg.startIndex = 0 then 0
           else ((stepIndex : ℝ) - (seg.startIndex : ℝ)) /
             ((seg.endIndex - seg.startIndex : ℤ) : ℝ))) := by
  have h' : seg.startIndex ≤ stepIndex ∧ stepIndex ≤ seg.endIndex := h
  rw [evalSegLoop, if_pos h']

lemma evalSegLoop_cons_neg (stepIndex : ℤ) (totalRate sv ev : ℝ) (seg : ISegment)
    (rest : List ISegment) (acc : ℝ) (h : ¬segContains seg stepIndex) :
    evalSegLoop stepIndex totalRate sv ev (seg :: rest) acc =
      evalSegLoop stepIndex totalRate sv ev rest (acc + seg.rate) := by
  have h' : ¬(seg.startIndex ≤ stepIndex ∧ stepIndex ≤ seg.endIndex) := h
  rw [evalSegLoop, if_neg h']

lemma evalSegLoop_skip (stepIndex : ℤ) (totalRate sv ev : ℝ) (pre rest : List ISegment)
    (acc : ℝ) (hpre : ∀ s ∈ pre, ¬segContains s stepIndex) :
    evalSegLoop stepIndex totalRate sv ev (pre ++ rest) acc =
      evalSegLoop stepIndex totalRate sv ev rest (acc + sumRates pre) := by
  induction pre generalizing acc with
  | nil => simp [sumRates_nil]
  | cons s pre ih =>
    rw [List.cons_append,
      evalSegLoop_cons_neg _ _ _ _ _ _ _ (hpre s (List.mem_cons_self s pre)),
      ih (acc + s.rate) (fun x hx => hpre x (List.mem_cons_of_mem s hx)),
      sumRates_cons]
    ring_nf

lemma evalSegLoop_all_neg (stepIndex : ℤ) (totalRate sv ev : ℝ) (l : List ISegment)
    (acc : ℝ) (h : ∀ s ∈ l, ¬segContains s stepIndex) :
    evalSegLoop stepIndex totalRate sv ev l acc = ev := by
  have := evalSegLoop_skip stepIndex totalRate sv ev l [] acc h
  rw [List.append_nil] at this
  rw [this, evalSegLoop]

lemma evaluateCurveSegment_some_ne_nil (step : ℕ) (cd : CurveDef) (sv ev : ℝ)
    (steps : List ℕ) (startIndex endIndex : ℕ) (hne : cd ≠ []) :
    evaluateCurveSegment step (some cd) sv ev steps startIndex endIndex =
      evalSegLoop (jsIndexOf steps step)
        (sumRates (indexedSegments steps cd (steps.getD startIndex 0))) sv ev
        (indexedSegments steps cd (steps.getD startIndex 0)) 0 := by
  rw [evaluateCurveSegment]
  rw [if_neg (by simpa [List.isEmpty_iff] using hne)]

end ColorScale

open ColorScale in
/-- Claim C3: for a non-empty curve definition, when the parsed,
index-enriched segment list splits as `pre ++ seg :: post` with no
segment of `pre` containing the queried step index and `seg` containing
it (i.e. `seg` is the first containing segment), the Mode A evaluator
returns `startValue + (endValue - startValue) * progress` with
`progress = sumRates pre / totalRate + (seg.rate / totalRate) * easedT`,
where `totalRate` sums all segment rates and `easedT` applies the
segment's named easing to `localT = (stepIndex - startIndex) /
(endIndex - startIndex)` (0 for a zero-span segment); and when no
segment contains the step index the evaluator returns `endValue`. -/
theorem C3_evaluateCurveSegment_formula (step : ℕ) (cd : CurveDef) (sv ev : ℝ)
    (steps : List ℕ) (startIndex endIndex : ℕ) (hne : cd ≠ []) :
    (∀ pre seg post,
      indexedSegments steps cd (steps.getD startIndex 0) = pre ++ seg :: post →
      (∀ s ∈ pre, ¬segContains s (jsIndexOf steps step)) →
      segContains seg (jsIndexOf steps step) →
      evaluateCurveSegment step (some cd) sv ev steps startIndex endIndex =
        sv + (ev - sv) *
          (sumRates pre / sumRates (indexedSegments steps cd (steps.getD startIndex 0)) +
           (seg.rate / sumRates (indexedSegments steps cd (steps.getD startIndex 0))) *
             ease seg.easingType
               (if seg.endIndex - seg.startIndex = 0 then 0
                else ((jsIndexOf steps step : ℝ) - (seg.startIndex : ℝ)) /
                  ((seg.endIndex - seg.startIndex : ℤ) : ℝ)))) ∧
    ((∀ s ∈ indexedSegments steps cd (steps.getD startIndex 0),
        ¬segContains s (jsIndexOf steps step)) →
      evaluateCurveSegment step (some cd) sv ev steps startIndex endIndex = ev) := by
  constructor
  · intro pre seg post hsplit hpre hseg
    rw [evaluateCurveSegment_some_ne_nil step cd sv ev steps startIndex endIndex hne]
    rw [hsplit] at *
    rw [evalSegLoop_skip _ _ _ _ _ _ _ hpre, evalSegLoop_cons_pos _ _ _ _ _ _ _ hseg]
    rw [zero_add]
  · intro hall
    rw [evaluateCurveSegment_some_ne_nil step cd sv ev steps startIndex endIndex hne]
    exact evalSegLoop_all_neg _ _ _ _ _ _ hall

open ColorScale in
/-- Witness for claim C3: the two-segment tint curve
`["linear", 200, "linear"]` with values 0 and 1, evaluated at step 300
(index 4, inside the second segment, whose index span is 3..12 after the
missing-boundary default): the first conjunct of the formula theorem
applies with `pre` the first segment and yields
`0 + 1 * (1/2 + (1/2) * ((4 - 3) / 9)) = 5/9`. -/
theorem C3_evaluateCurveSegment_witness :
    evaluateCurveSegment 300
      (some [({ name := EasingType.linear, rate := none }, some 200),
             ({ name := EasingType.linear, rate := none }, none)]) 0 1 allSteps 0 6 =
      5 / 9 := by
  have hsegs : indexedSegments allSteps
      [({ name := EasingType.linear, rate := none }, some 200),
       ({ name := EasingType.linear, rate := none }, none)] (allSteps.getD 0 0) =
      [{ startIndex := 0, endIndex := 3, easingType := EasingType.linear, rate := 1 },
       { startIndex := 3, endIndex := 12, easingType := EasingType.linear, rate := 1 }] := by
    rfl
  have h := (C3_evaluateCurveSegment_formula 300
    [({ name := EasingType.linear, rate := none }, some 200),
     ({ name := EasingType.linear, rate := none }, none)] 0 1 allSteps 0 6
    (by decide)).1
    [{ startIndex := 0, endIndex := 3, easingType := EasingType.linear, rate := 1 }]
    { startIndex := 3, endIndex := 12, easingType := EasingType.linear, rate := 1 }
    [] hsegs
    (by
      intro x hx
      rw [List.mem_singleton] at hx
      subst hx
      decide)
    (by decide)
  rw [h, hsegs]
  have hidx : jsIndexOf allSteps 300 = 4 := by rfl
  rw [hidx]
  rw [sumRates, sumRates]
  simp only [List.map_cons, List.map_nil, List.sum_cons, List.sum_nil]
  rw [if_neg (by decide : ¬((12 : ℤ) - 3 = 0))]
  rw [ease]
  unfold easeLinear
  push_cast
  norm_num

namespace ColorScale

lemma ease_zero (e : EasingType) : ease e 0 = 0 := by
  cases e <;>
    norm_num [ease, easeLinear, easeInSine, easeOutSine, easeInOutSine, easeInQuad,
      easeOutQuad, easeInOutQuad, easeInCubic, easeOutCubic, easeInOutCubic, easeInQuart,
      easeOutQuart, easeInOutQuart, easeInQuint, easeOutQuint, easeInOutQuint, easeInExpo,
      easeOutExpo, easeInOutExpo, Real.rpow_natCast]

lemma ease_one (e : EasingType) : ease e 1 = 1 := by
  cases e <;>
    norm_num [ease, easeLinear, easeInSine, easeOutSine, easeInOutSine, easeInQuad,
      easeOutQuad, easeInOutQuad, easeInCubic, easeOutCubic, easeInOutCubic, easeInQuart,
      easeOutQuart, easeInOutQuart, easeInQuint, easeOutQuint, easeInOutQuint, easeInExpo,
      easeOutExpo, easeInOutExpo, Real.cos_pi_div_two, Real.sin_pi_div_two, Real.cos_pi]

end ColorScale

namespace ColorScale

lemma WFfrom_sumRates_nonneg (hi : ℤ) :
    ∀ (segs : List ISegment) (cur : ℤ), WFfrom hi cur segs → 0 ≤ sumRates segs := by
  intro segs
  induction segs with
  | nil => intro cur _; rw [sumRates_nil]
  | cons seg rest ih =>
    intro cur hwf
    obtain ⟨-, -, -, hrate, hrest⟩ := hwf
    have := ih seg.endIndex hrest
    rw [sumRates_cons]
    linarith

lemma evalSegLoop_start (total sv ev : ℝ) (hi lo : ℤ) (segs : List ISegment)
    (hwf : WFfrom hi lo segs) (hne : lo ≠ hi) :
    evalSegLoop lo total sv ev segs 0 = sv := by
  cases segs with
  | nil => exact absurd hwf hne
  | cons seg rest =>
    obtain ⟨hstart, hlt, -, -, -⟩ := hwf
    have hcont : segContains seg lo := by
      constructor
      · rw [hstart]
      · exact le_of_lt hlt
    rw [evalSegLoop_cons_pos _ _ _ _ _ _ _ hcont]
    have hlocal : (if seg.endIndex - seg.startIndex = 0 then (0 : ℝ)
        else ((lo : ℝ) - (seg.startIndex : ℝ)) / ((seg.endIndex - seg.startIndex : ℤ) : ℝ)) = 0 := by
      split
      · rfl
      · rw [hstart, sub_self, zero_div]
    rw [hlocal, ease_zero]
    ring

lemma evalSegLoop_end (total sv ev : ℝ) (hi : ℤ) :
    ∀ (segs : List ISegment) (cur : ℤ) (acc : ℝ),
      WFfrom hi cur segs → acc + sumRates segs = total → 0 < total → cur ≤ hi →
      evalSegLoop hi total sv ev segs acc = ev := by
  intro segs
  induction segs with
  | nil => intro cur acc _ _ _ _; rw [evalSegLoop]
  | cons seg rest ih =>
    intro cur acc hwf hsum htot hcur
    obtain ⟨hstart, hlt, hle, hrate, hrest⟩ := hwf
    rcases eq_or_lt_of_le hle with hEnd | hEnd
    · have hcont : segContains seg hi := by
        constructor
        · rw [hstart]; exact hcur
        · rw [hEnd]
      rw [evalSegLoop_cons_pos _ _ _ _ _ _ _ hcont]
      have hspan : seg.endIndex - seg.startIndex ≠ 0 := by
        rw [hstart, hEnd]
        omega
      have hrestnil : rest = [] := by
        cases rest with
        | nil => rfl
        | cons s2 r2 =>
          obtain ⟨-, h2, h3, -, -⟩ := hrest
          rw [hEnd] at h2
          omega
      have hsum' : acc + seg.rate = total := by
        rw [hrestnil] at hsum
        rw [sumRates_cons, sumRates_nil] at hsum
        linarith
      have hlocal : (if seg.endIndex - seg.startIndex = 0 then (0 : ℝ)
          else ((hi : ℝ) - (seg.startIndex : ℝ)) /
            ((seg.endIndex - seg.startIndex : ℤ) : ℝ)) = 1 := by
        rw [if_neg hspan, hEnd, Int.cast_sub]
        rw [div_self]
        intro habs
        have h1 : ((hi : ℝ)) = ((seg.startIndex : ℝ)) := by linarith
        have h2 : hi = seg.startIndex := by exact_mod_cast h1
        rw [hstart] at h2
        rw [hEnd] at hlt
        omega
      rw [hlocal, ease_one]
      have htotne : total ≠ 0 := ne_of_gt htot
      have hprog : acc / total + seg.rate / total * 1 = 1 := by
        rw [mul_one, div_add_div_same, hsum', div_self htotne]
      rw [hprog]
      ring
    · have hnc : ¬segContains seg hi := by
        intro hc
        have := hc.2
        omega
      rw [evalSegLoop_cons_neg _ _ _ _ _ _ _ hnc]
      apply ih seg.endIndex (acc + seg.rate) hrest _ htot (le_of_lt hEnd)
      rw [sumRates_cons] at hsum
      linarith

end ColorScale

namespace ColorScale

lemma WFfrom_sumRates_pos (hi cur : ℤ) (seg : ISegment) (rest : List ISegment)
    (hwf : WFfrom hi cur (seg :: rest)) : 0 < sumRates (seg :: rest) := by
  obtain ⟨-, -, -, hrate, hrest⟩ := hwf
  have := WFfrom_sumRates_nonneg hi rest seg.endIndex hrest
  rw [sumRates_cons]
  linarith

lemma indexedSegments_ne_nil (steps : List ℕ) (cd : CurveDef) (startStep : ℕ)
    (hne : cd ≠ []) : indexedSegments steps cd startStep ≠ [] := by
  cases cd with
  | nil => exact absurd rfl hne
  | cons p rest =>
    obtain ⟨sp, b⟩ := p
    simp [indexedSegments, parseCurveDefinition]

lemma evaluateCurveSegment_tint50 (oc : Option CurveDef) (sv ev : ℝ)
    (hok : OkCurve oc 0 6) :
    evaluateCurveSegment 50 oc sv ev allSteps 0 6 = sv := by
  have hidx : jsIndexOf allSteps 50 = 0 := rfl
  match oc with
  | none =>
    simp only [evaluateCurveSegment, hidx]
    norm_num
  | some cd =>
    have hok' : cd = [] ∨ WFCurve cd 0 6 := hok
    rcases hok' with rfl | hwf
    · simp only [evaluateCurveSegment, hidx, List.isEmpty_nil, if_pos]
      norm_num
    · have hne : cd ≠ [] := by
        intro hnil
        rw [WFCurve, hnil] at hwf
        simp [indexedSegments, parseCurveDefinition, WFfrom] at hwf
      rw [evaluateCurveSegment_some_ne_nil _ _ _ _ _ _ _ hne, hidx]
      have hwf' : WFfrom ((6 : ℕ) : ℤ) ((0 : ℕ) : ℤ)
          (indexedSegments allSteps cd (allSteps.getD 0 0)) := hwf
      exact evalSegLoop_start _ sv ev _ _ _ hwf' (by decide)

lemma evaluateCurveSegment_shade950 (oc : Option CurveDef) (sv ev : ℝ)
    (hok : OkCurve oc 6 12) :
    evaluateCurveSegment 950 oc sv ev allSteps 6 12 = ev := by
  have hidx : jsIndexOf allSteps 950 = 12 := rfl
  match oc with
  | none =>
    simp only [evaluateCurveSegment, hidx]
    push_cast
    norm_num
  | some cd =>
    have hok' : cd = [] ∨ WFCurve cd 6 12 := hok
    rcases hok' with rfl | hwf
    · simp only [evaluateCurveSegment, hidx, List.isEmpty_nil, if_pos]
      push_cast
      norm_num
    · have hne : cd ≠ [] := by
        intro hnil
        rw [WFCurve, hnil] at hwf
        simp [indexedSegments, parseCurveDefinition, WFfrom] at hwf
      rw [evaluateCurveSegment_some_ne_nil _ _ _ _ _ _ _ hne, hidx]
      have hwf' : WFfrom ((12 : ℕ) : ℤ) ((6 : ℕ) : ℤ)
          (indexedSegments allSteps cd (allSteps.getD 6 0)) := hwf
      have hpos : 0 < sumRates (indexedSegments allSteps cd (allSteps.getD 6 0)) := by
        rcases hsegs : indexedSegments allSteps cd (allSteps.getD 6 0) with _ | ⟨q, qs⟩
        · exact absurd hsegs (indexedSegments_ne_nil _ _ _ hne)
        · rw [hsegs] at hwf'
          exact WFfrom_sumRates_pos _ _ _ _ hwf'
      refine evalSegLoop_end _ sv ev _ _ ((6 : ℕ) : ℤ) 0 hwf' ?_ hpos (by decide)
      rw [zero_add]

end ColorScale

namespace ScaleV2

lemma numLookup_nil (k : ℕ) : numLookup [] k = none := rfl

lemma numLookup_cons_self (k : ℕ) (r : ℝ) (t : NumMap) :
    numLookup ((k, r) :: t) k = some r := by
  rw [numLookup]
  simp [List.lookup]

lemma numLookup_cons_ne (k q : ℕ) (r : ℝ) (t : NumMap) (h : k ≠ q) :
    numLookup ((q, r) :: t) k = numLookup t k := by
  rw [numLookup, numLookup]
  simp [List.lookup, beq_eq_false_iff_ne.mpr h]

lemma lookup_objSet (m : NumMap) (k : ℕ) (v : ℝ) :
    numLookup (objSet m k v) k = some v := by
  rw [objSet]
  split
  · rename_i hany
    induction m with
    | nil => simp at hany
    | cons p t ih =>
      obtain ⟨q, r⟩ := p
      rw [List.any_cons, Bool.or_eq_true] at hany
      by_cases hq : q = k
      · subst hq
        rw [List.map_cons, if_pos (by simp)]
        exact numLookup_cons_self _ v _
      · rw [List.map_cons, if_neg (by simpa using hq)]
        rw [numLookup_cons_ne k q r _ (fun habs => hq habs.symm)]
        rcases hany with h1 | h2
        · exact absurd (by simpa using h1) hq
        · exact ih h2
  · rename_i hany
    rw [Bool.not_eq_true] at hany
    induction m with
    | nil =>
      rw [List.nil_append]
      exact numLookup_cons_self k v []
    | cons p t ih =>
      obtain ⟨q, r⟩ := p
      rw [List.any_cons, Bool.or_eq_false_iff] at hany
      have hq : q ≠ k := by simpa using hany.1
      rw [List.cons_append, numLookup_cons_ne k q r _ (fun habs => hq habs.symm)]
      exact ih hany.2

lemma lookup_objSet_ne (m : NumMap) (k other : ℕ) (v : ℝ) (h : other ≠ k) :
    numLookup (objSet m other v) k = numLookup m k := by
  have hko : k ≠ other := fun habs => h habs.symm
  rw [objSet]
  split
  · rename_i hany
    clear hany
    induction m with
    | nil => rfl
    | cons p t ih =>
      obtain ⟨q, r⟩ := p
      by_cases hq : q = other
      · have hkq : k ≠ q := fun habs => hko (hq ▸ habs)
        rw [List.map_cons, if_pos (by simpa using hq)]
        rw [numLookup_cons_ne k other v _ hko, numLookup_cons_ne k q r _ hkq]
        exact ih
      · rw [List.map_cons, if_neg (by simpa using hq)]
        by_cases hk : k = q
        · subst hk
          rw [numLookup_cons_self, numLookup_cons_self]
        · rw [numLookup_cons_ne k q r _ hk, numLookup_cons_ne k q r _ hk]
          exact ih
  · rename_i hany
    clear hany
    induction m with
    | nil =>
      rw [List.nil_append, numLookup_cons_ne k other v [] hko]
    | cons p t ih =>
      obtain ⟨q, r⟩ := p
      rw [List.cons_append]
      by_cases hk : k = q
      · subst hk
        rw [numLookup_cons_self, numLookup_cons_self]
      · rw [numLookup_cons_ne k q r _ hk, numLookup_cons_ne k q r _ hk]
        exact ih

lemma interpolateValue_exact (step : ℕ) (cp : NumMap) (v : ℝ)
    (h : numLookup cp step = some v) : interpolateValue step cp = v := by
  rw [interpolateValue, h]

end ScaleV2

namespace ScaleV2

lemma lookup_lightFold (cfg : ConfigB) (k : ℕ) :
    ∀ (entries : NumMap) (init : NumMap),
      (∀ p ∈ entries, p.1 = k → p.1 = 500) →
      numLookup (entries.foldl (fun acc p =>
        if p.1 < 500 then
          objSet acc p.1 (cfg.startL + (p.2 / 100) * (cfg.baseLightness - cfg.startL))
        else if 500 < p.1 then
          objSet acc p.1 (cfg.baseLightness + (p.2 / 100) * (cfg.endL - cfg.baseLightness))
        else acc) init) k = numLookup init k := by
  intro entries
  induction entries with
  | nil => intro init _; rfl
  | cons p t ih =>
    intro init hk
    rw [List.foldl_cons]
    rw [ih _ (fun x hx hxk => hk x (List.mem_cons_of_mem p hx) hxk)]
    by_cases h1 : p.1 < 500
    · rw [if_pos h1]
      exact lookup_objSet_ne _ _ _ _ (fun habs => by
        have := hk p (List.mem_cons_self p t) habs
        omega)
    · rw [if_neg h1]
      by_cases h2 : 500 < p.1
      · rw [if_pos h2]
        exact lookup_objSet_ne _ _ _ _ (fun habs => by
          have := hk p (List.mem_cons_self p t) habs
          omega)
      · rw [if_neg h2]

lemma mem_mapValuesToSteps (values : NumMap) (avail : List ℕ) (p : ℕ × ℝ)
    (hp : p ∈ mapValuesToSteps values avail) : p ∈ values := by
  rw [mapValuesToSteps] at hp
  exact (List.mem_filter.mp hp).1

lemma lightControls_lookup_500 (cfg : ConfigB) :
    numLookup (lightControls cfg) 500 = some cfg.baseLightness := by
  rw [lightControls]
  rw [lookup_lightFold cfg 500 (mapValuesToSteps cfg.lightnessProgression STEPS)
    [(50, cfg.startL), (500, cfg.baseLightness), (950, cfg.endL)] (fun p _ hpk => hpk)]
  rw [numLookup_cons_ne 500 50 _ _ (by norm_num), numLookup_cons_self]

lemma lightControls_lookup_50 (cfg : ConfigB)
    (h : ∀ p ∈ cfg.lightnessProgression, p.1 ≠ 50) :
    numLookup (lightControls cfg) 50 = some cfg.startL := by
  rw [lightControls]
  rw [lookup_lightFold cfg 50 (mapValuesToSteps cfg.lightnessProgression STEPS)
    [(50, cfg.startL), (500, cfg.baseLightness), (950, cfg.endL)]
    (fun p hp hpk => absurd hpk (h p (mem_mapValuesToSteps _ _ p hp)))]
  rw [numLookup_cons_self]

lemma lightControls_lookup_950 (cfg : ConfigB)
    (h : ∀ p ∈ cfg.lightnessProgression, p.1 ≠ 950) :
    numLookup (lightControls cfg) 950 = some cfg.endL := by
  rw [lightControls]
  rw [lookup_lightFold cfg 950 (mapValuesToSteps cfg.lightnessProgression STEPS)
    [(50, cfg.startL), (500, cfg.baseLightness), (950, cfg.endL)]
    (fun p hp hpk => absurd hpk (h p (mem_mapValuesToSteps _ _ p hp)))]
  rw [numLookup_cons_ne 950 50 _ _ (by norm_num),
    numLookup_cons_ne 950 500 _ _ (by norm_num), numLookup_cons_self]

lemma resolveStep_500 (cfg : ConfigB) (h0 : 0 ≤ cfg.baseHue) (h1 : cfg.baseHue < 360) :
    resolveStep cfg 500 =
      { h := cfg.baseHue, s := cfg.baseSaturation / 100, l := cfg.baseLightness / 100 } := by
  have hh : interpolateValue 500 (hueControls cfg) = 0 :=
    interpolateValue_exact _ _ _ (by rw [hueControls]; exact lookup_objSet _ _ _)
  have hs : interpolateValue 500 (satControls cfg) = cfg.baseSaturation :=
    interpolateValue_exact _ _ _ (by rw [satControls]; exact lookup_objSet _ _ _)
  have hl : interpolateValue 500 (lightControls cfg) = cfg.baseLightness :=
    interpolateValue_exact _ _ _ (lightControls_lookup_500 cfg)
  simp only [resolveStep]
  rw [hh, hs, hl, add_zero, ColorScale.wrapHueV2_eq_self h0 h1]

end ScaleV2

open ColorScale in
/-- Claim C1: in Mode A the sample at step 500 (index 6) is the exact
base OKLCH triple, for every configuration, curve set and peak-boost
setting, with no wrap or scaling applied; in Mode B (for a base hue in
the wrap-invariant range `[0, 360)`) the OKhsl triple resolved at step
500 is exactly the base hue with zero hue shift, the base saturation
and the base lightness, whatever progression maps are supplied, and the
emitted sample is exactly the conversion of that base triple. -/
theorem C1_step500_is_base_triple
    (c1 : ℝ → ℝ → ℝ → OKhsl) (c2 : ℝ → ℝ → ℝ → OKLCH)
    (conv : ℝ → ℝ → ℝ → ScaleV2.OklchCoords)
    (cfgA : ConfigA) (cfgB : ScaleV2.ConfigB)
    (hb0 : 0 ≤ cfgB.baseHue) (hb1 : cfgB.baseHue < 360) :
    (generatePerceptuallyUniformScale c1 c2 cfgA).get? 6 =
      some { L := cfgA.baseL, C := cfgA.baseC, H := cfgA.baseH } ∧
    (ScaleV2.generateScaleOkhsl cfgB).get? 6 =
      some { h := cfgB.baseHue, s := cfgB.baseSaturation / 100,
             l := cfgB.baseLightness / 100 } ∧
    (ScaleV2.generateScale conv cfgB).get? 6 =
      some { L := (conv cfgB.baseHue (cfgB.baseSaturation / 100)
                    (cfgB.baseLightness / 100)).L * 100,
             C := (conv cfgB.baseHue (cfgB.baseSaturation / 100)
                    (cfgB.baseLightness / 100)).C,
             H := ((conv cfgB.baseHue (cfgB.baseSaturation / 100)
                    (cfgB.baseLightness / 100)).H).getD 0 } := by
  have hB : (ScaleV2.generateScaleOkhsl cfgB).get? 6 = some (ScaleV2.resolveStep cfgB 500) :=
    rfl
  have hres := ScaleV2.resolveStep_500 cfgB hb0 hb1
  refine ⟨rfl, ?_, ?_⟩
  · rw [hB, hres]
  · have hmap : (ScaleV2.generateScale conv cfgB).get? 6 =
        ((ScaleV2.generateScaleOkhsl cfgB).get? 6).map (ScaleV2.mkOklchSample conv) := by
      rw [ScaleV2.generateScale, List.get?_map]
    rw [hmap, hB, hres]
    rfl

open ColorScale in
/-- Witness for claim C1: a concrete configuration (base hue 100, inside
the wrap-invariant range) with concrete conversion stand-ins; the
hypotheses of the claim theorem hold by numeric evaluation. -/
theorem C1_step500_witness :
    (generatePerceptuallyUniformScale (fun _ _ _ => { h := 0, s := 0, l := 0 })
        (fun _ _ _ => { L := 0, C := 0, H := 0 })
        { baseL := 50, baseC := 1 / 10, baseH := 200, startL := 98, endL := 8,
          startS := 1 / 2, endS := 1 / 4, startHueShift := 0, endHueShift := 0 }).get? 6 =
      some { L := 50, C := 1 / 10, H := 200 } ∧
    (ScaleV2.generateScaleOkhsl
        { baseHue := 100, baseSaturation := 90, baseLightness := 60 }).get? 6 =
      some { h := 100, s := 90 / 100, l := 60 / 100 } := by
  have h := C1_step500_is_base_triple (fun _ _ _ => { h := 0, s := 0, l := 0 })
    (fun _ _ _ => { L := 0, C := 0, H := 0 })
    (fun h s l => { L := l, C := s, H := some h })
    { baseL := 50, baseC := 1 / 10, baseH := 200, startL := 98, endL := 8,
      startS := 1 / 2, endS := 1 / 4, startHueShift := 0, endHueShift := 0 }
    { baseHue := 100, baseSaturation := 90, baseLightness := 60 }
    (by norm_num) (by norm_num)
  exact ⟨h.1, h.2.1⟩

namespace ColorScale

lemma evaluatePiecewiseCurve_50 (tc sc : Option CurveDef) (sv bv ev : ℝ)
    (hok : OkCurve tc 0 6) :
    evaluatePiecewiseCurve 50 tc sc sv bv ev = sv := by
  have h50 : jsIndexOf allSteps 50 = 0 := rfl
  have h500 : jsIndexOf allSteps 500 = 6 := rfl
  simp only [evaluatePiecewiseCurve, h50, h500]
  norm_num
  exact evaluateCurveSegment_tint50 tc sv bv hok

lemma evaluatePiecewiseCurve_950 (tc sc : Option CurveDef) (sv bv ev : ℝ)
    (hok : OkCurve sc 6 12) :
    evaluatePiecewiseCurve 950 tc sc sv bv ev = ev := by
  have h950 : jsIndexOf allSteps 950 = 12 := rfl
  have h500 : jsIndexOf allSteps 500 = 6 := rfl
  simp only [evaluatePiecewiseCurve, h950, h500]
  norm_num
  exact evaluateCurveSegment_shade950 sc bv ev hok

lemma scaleSample_L (conv : ℝ → ℝ → ℝ → OKLCH) (cfg : ConfigA) (b : OKhsl) (step : ℕ)
    (h : step ≠ 500) :
    (scaleSample conv cfg b step).L =
      evaluatePiecewiseCurve step cfg.tintLightnessCurve cfg.shadeLightnessCurve
        cfg.startL cfg.baseL cfg.endL := by
  rw [scaleSample, if_neg h]

end ColorScale

namespace ScaleV2

lemma resolveStep_l (cfg : ConfigB) (step : ℕ) :
    (resolveStep cfg step).l = interpolateValue step (lightControls cfg) / 100 := rfl

end ScaleV2

open ColorScale in
/-- Counterexample for claim C2: in Mode B the lightness progression map
with the single entry `{50: 50}` (a legal entry: 50 is a valid step) on
a configuration with `startL = 98` and base lightness 60 makes the
relative-percentage loop overwrite the step-50 anchor, so the OKhsl
lightness resolved for step 50 is `0.79`, not `startL / 100 = 0.98`. -/
theorem C2_counterexample :
    ((ScaleV2.generateScaleOkhsl
        { baseHue := 250, baseSaturation := 90, baseLightness := 60, startL := 98,
          endL := 8, hueProgression := [], saturationProgression := [],
          lightnessProgression := [(50, 50)] }).get? 0).map OKhsl.l =
      some (79 / 100) ∧ (79 / 100 : ℝ) ≠ 98 / 100 := by
  have hv : ((ScaleV2.generateScaleOkhsl
      { baseHue := 250, baseSaturation := 90, baseLightness := 60, startL := 98,
        endL := 8, hueProgression := [], saturationProgression := [],
        lightnessProgression := [(50, 50)] }).get? 0).map OKhsl.l =
      some ((98 + (50 / 100) * (60 - 98)) / 100 : ℝ) := rfl
  rw [hv]
  constructor
  · norm_num
  · norm_num

open ColorScale in
/-- Claim C2 (amended): in Mode A, for every configuration whose tint
and shade lightness curves are each absent, empty or well formed (the
spec's CurveDefinition invariant), the step-50 sample's lightness is
exactly `startL` and the step-950 sample's lightness is exactly `endL`;
in Mode B the same holds for the resolved (pre-conversion) OKhsl
lightness, provided the lightness progression map carries no entry at
step 50 or 950 - such entries are legal and overwrite the anchors, which
is what the counterexample exhibits. -/
theorem C2_endpoint_lightness_anchors
    (c1 : ℝ → ℝ → ℝ → OKhsl) (c2 : ℝ → ℝ → ℝ → OKLCH)
    (cfgA : ConfigA) (cfgB : ScaleV2.ConfigB)
    (htint : OkCurve cfgA.tintLightnessCurve 0 6)
    (hshade : OkCurve cfgA.shadeLightnessCurve 6 12)
    (h50 : ∀ p ∈ cfgB.lightnessProgression, p.1 ≠ 50)
    (h950 : ∀ p ∈ cfgB.lightnessProgression, p.1 ≠ 950) :
    ((generatePerceptuallyUniformScale c1 c2 cfgA).get? 0).map OKLCH.L =
      some cfgA.startL ∧
    ((generatePerceptuallyUniformScale c1 c2 cfgA).get? 12).map OKLCH.L =
      some cfgA.endL ∧
    ((ScaleV2.generateScaleOkhsl cfgB).get? 0).map OKhsl.l =
      some (cfgB.startL / 100) ∧
    ((ScaleV2.generateScaleOkhsl cfgB).get? 12).map OKhsl.l =
      some (cfgB.endL / 100) := by
  refine ⟨?_, ?_, ?_, ?_⟩
  · have hg : ((generatePerceptuallyUniformScale c1 c2 cfgA).get? 0).map OKLCH.L =
        some ((scaleSample c2 cfgA (c1 cfgA.baseL cfgA.baseC cfgA.baseH) 50).L) := rfl
    rw [hg, scaleSample_L c2 cfgA _ 50 (by decide),
      evaluatePiecewiseCurve_50 _ _ _ _ _ htint]
  · have hg : ((generatePerceptuallyUniformScale c1 c2 cfgA).get? 12).map OKLCH.L =
        some ((scaleSample c2 cfgA (c1 cfgA.baseL cfgA.baseC cfgA.baseH) 950).L) := rfl
    rw [hg, scaleSample_L c2 cfgA _ 950 (by decide),
      evaluatePiecewiseCurve_950 _ _ _ _ _ hshade]
  · have hg : ((ScaleV2.generateScaleOkhsl cfgB).get? 0).map OKhsl.l =
        some ((ScaleV2.resolveStep cfgB 50).l) := rfl
    rw [hg, ScaleV2.resolveStep_l,
      ScaleV2.interpolateValue_exact _ _ _ (ScaleV2.lightControls_lookup_50 cfgB h50)]
  · have hg : ((ScaleV2.generateScaleOkhsl cfgB).get? 12).map OKhsl.l =
        some ((ScaleV2.resolveStep cfgB 950).l) := rfl
    rw [hg, ScaleV2.resolveStep_l,
      ScaleV2.interpolateValue_exact _ _ _ (ScaleV2.lightControls_lookup_950 cfgB h950)]

open ColorScale in
/-- Witness for claim C2 (amended): a concrete Mode A configuration with
absent lightness curves and a concrete Mode B configuration whose only
lightness progression entry sits at step 600; all hypotheses hold by
evaluation. -/
theorem C2_endpoint_lightness_witness :
    ((generatePerceptuallyUniformScale (fun _ _ _ => { h := 0, s := 0, l := 0 })
        (fun _ _ _ => { L := 0, C := 0, H := 0 })
        { baseL := 50, baseC := 1 / 10, baseH := 200, startL := 98, endL := 8,
          startS := 1 / 2, endS := 1 / 4, startHueShift := 0,
          endHueShift := 0 }).get? 0).map OKLCH.L = some 98 ∧
    ((ScaleV2.generateScaleOkhsl
        { baseHue := 250, baseSaturation := 90, baseLightness := 60, startL := 98,
          endL := 8, hueProgression := [], saturationProgression := [],
          lightnessProgression := [(600, 50)] }).get? 12).map OKhsl.l =
      some (8 / 100) := by
  have h := C2_endpoint_lightness_anchors
    (fun _ _ _ => { h := 0, s := 0, l := 0 }) (fun _ _ _ => { L := 0, C := 0, H := 0 })
    { baseL := 50, baseC := 1 / 10, baseH := 200, startL := 98, endL := 8,
      startS := 1 / 2, endS := 1 / 4, startHueShift := 0, endHueShift := 0 }
    { baseHue := 250, baseSaturation := 90, baseLightness := 60, startL := 98,
      endL := 8, hueProgression := [], saturationProgression := [],
      lightnessProgression := [(600, 50)] }
    trivial trivial
    (by
      intro p hp
      rw [List.mem_singleton] at hp
      subst hp
      norm_num)
    (by
      intro p hp
      rw [List.mem_singleton] at hp
      subst hp
      norm_num)
  exact ⟨h.1, h.2.2.2⟩

namespace ColorScale

lemma evalSegLoop_zero (stepIndex : ℤ) (totalRate : ℝ) :
    ∀ (l : List ISegment) (acc : ℝ), evalSegLoop stepIndex totalRate 0 0 l acc = 0 := by
  intro l
  induction l with
  | nil => intro acc; rw [evalSegLoop]
  | cons seg rest ih =>
    intro acc
    by_cases h : segContains seg stepIndex
    · rw [evalSegLoop_cons_pos _ _ _ _ _ _ _ h]
      ring
    · rw [evalSegLoop_cons_neg _ _ _ _ _ _ _ h]
      exact ih _

lemma evaluateCurveSegment_zero (step : ℕ) (oc : Option CurveDef) (steps : List ℕ)
    (startIndex endIndex : ℕ) :
    evaluateCurveSegment step oc 0 0 steps startIndex endIndex = 0 := by
  match oc with
  | none =>
    simp only [evaluateCurveSegment]
    ring
  | some cd =>
    simp only [evaluateCurveSegment]
    split
    · ring
    · exact evalSegLoop_zero _ _ _ _

lemma evaluatePiecewiseCurve_zero (step : ℕ) (tc sc : Option CurveDef) :
    evaluatePiecewiseCurve step tc sc 0 0 0 = 0 := by
  simp only [evaluatePiecewiseCurve]
  split
  · rfl
  · split
    · rfl
    · split
      · exact evaluateCurveSegment_zero _ _ _ _ _
      · exact evaluateCurveSegment_zero _ _ _ _ _

lemma peakOverride_fst_hue_params (b e sh eh sh2 eh2 : ℝ) (p : ℕ) (bo : ℝ) (s : ℕ) :
    (peakOverride b e sh eh p bo s).1 = (peakOverride b e sh2 eh2 p bo s).1 := by
  simp only [peakOverride]
  split
  · rfl
  · split <;> rfl

lemma peakOverride_fst_zero (sh eh : ℝ) (p : ℕ) (bo : ℝ) (s : ℕ) :
    (peakOverride 0 0 sh eh p bo s).1 = 0 := by
  simp only [peakOverride]
  split
  · simp
  · split <;> simp

lemma satHueAt_fst_zero (cfg : ConfigA) (step : ℕ)
    (hS : cfg.startS = 0) (hE : cfg.endS = 0) :
    (satHueAt cfg 0 step).1 = 0 := by
  rw [satHueAt]
  have hnormal : (evaluatePiecewiseCurve step cfg.tintSaturationCurve
      cfg.shadeSaturationCurve cfg.startS 0 cfg.endS : ℝ) = 0 := by
    rw [hS, hE]
    exact evaluatePiecewiseCurve_zero _ _ _
  match hps : cfg.shadePeakStep, hbs : cfg.shadeBoost with
  | some p, some boost =>
    simp only []
    split
    · rw [hE]
      exact peakOverride_fst_zero _ _ _ _ _
    · exact hnormal
  | some p, none => exact hnormal
  | none, some boost => exact hnormal
  | none, none => exact hnormal

lemma scaleSample_C (conv : ℝ → ℝ → ℝ → OKLCH) (cfg : ConfigA) (b : OKhsl) (step : ℕ)
    (h : step ≠ 500) :
    (scaleSample conv cfg b step).C =
      if (satHueAt cfg b.s step).1 = 0 then 0
      else (conv (wrapHue (cfg.baseH + (satHueAt cfg b.s step).2) / 360)
             (satHueAt cfg b.s step).1 b.l).C := by
  rw [scaleSample, if_neg h]

end ColorScale

open ColorScale in
/-- Counterexample for claim C8: a configuration with an achromatic base
(base chroma 0, base OKhsl saturation 0 under the conversion stand-in)
but a nonzero saturation anchor `startS = 1`: the step-50 sample's
resolved saturation is `startS = 1`, so its chroma is whatever the
conversion yields at saturation 1 (here 1), not 0.  The chroma is only
forced to 0 when the resolved saturation is 0. -/
theorem C8_counterexample :
    ((generatePerceptuallyUniformScale (fun _ _ _ => { h := 0, s := 0, l := 1 / 2 })
        (fun _ s _ => { L := 0, C := s, H := 0 })
        { baseL := 42, baseC := 0, baseH := 0, startL := 98, endL := 8,
          startS := 1, endS := 0, startHueShift := 0,
          endHueShift := 0 }).get? 0).map OKLCH.C = some 1 ∧ (1 : ℝ) ≠ 0 := by
  constructor
  · have hg : ((generatePerceptuallyUniformScale (fun _ _ _ => { h := 0, s := 0, l := 1 / 2 })
        (fun _ s _ => { L := 0, C := s, H := 0 })
        { baseL := 42, baseC := 0, baseH := 0, startL := 98, endL := 8,
          startS := 1, endS := 0, startHueShift := 0,
          endHueShift := 0 }).get? 0).map OKLCH.C =
        some ((scaleSample (fun _ s _ => { L := 0, C := s, H := 0 })
          { baseL := 42, baseC := 0, baseH := 0, startL := 98, endL := 8,
            startS := 1, endS := 0, startHueShift := 0, endHueShift := 0 }
          { h := 0, s := 0, l := 1 / 2 } 50).C) := rfl
    rw [hg, scaleSample_C _ _ _ _ (by decide)]
    have hsat : (satHueAt
        { baseL := 42, baseC := 0, baseH := 0, startL := 98, endL := 8,
          startS := 1, endS := 0, startHueShift := 0, endHueShift := 0 }
        (OKhsl.mk 0 0 (1 / 2)).s 50).1 = 1 := by
      have hdef : (satHueAt
          { baseL := 42, baseC := 0, baseH := 0, startL := 98, endL := 8,
            startS := 1, endS := 0, startHueShift := 0, endHueShift := 0 }
          (OKhsl.mk 0 0 (1 / 2)).s 50).1 =
          evaluatePiecewiseCurve 50 none none 1 0 0 := rfl
      rw [hdef]
      exact evaluatePiecewiseCurve_50 none none 1 0 0 trivial
    rw [hsat, if_neg (by norm_num)]
  · norm_num

open ColorScale in
/-- Claim C8 (amended): whenever a step's resolved saturation is exactly
0 the step's sample has chroma exactly 0 (the NaN guard of the source is
not representable over the reals); and an achromatic base (base chroma
0, base OKhsl saturation 0) yields chroma exactly 0 at every one of the
13 steps provided the saturation anchors `startS` and `endS` are also 0
- without that proviso the counterexample applies. -/
theorem C8_achromatic_chroma_zero (c1 : ℝ → ℝ → ℝ → OKhsl) (c2 : ℝ → ℝ → ℝ → OKLCH)
    (cfg : ConfigA) :
    (∀ step : ℕ, step ≠ 500 →
      (satHueAt cfg (c1 cfg.baseL cfg.baseC cfg.baseH).s step).1 = 0 →
      (scaleSample c2 cfg (c1 cfg.baseL cfg.baseC cfg.baseH) step).C = 0) ∧
    (cfg.baseC = 0 → (c1 cfg.baseL cfg.baseC cfg.baseH).s = 0 →
      cfg.startS = 0 → cfg.endS = 0 →
      ∀ o ∈ generatePerceptuallyUniformScale c1 c2 cfg, o.C = 0) := by
  constructor
  · intro step hne hzero
    rw [scaleSample_C c2 cfg _ step hne, if_pos hzero]
  · intro hbC hbs hS hE o ho
    rw [generatePerceptuallyUniformScale] at ho
    simp only [List.mem_map] at ho
    obtain ⟨step, hstep, rfl⟩ := ho
    by_cases h5 : step = 500
    · subst h5
      rw [scaleSample, if_pos rfl]
      exact hbC
    · rw [scaleSample_C c2 cfg _ step h5, hbs,
        if_pos (satHueAt_fst_zero cfg step hS hE)]

open ColorScale in
/-- Witness for claim C8 (amended): a concrete achromatic configuration
(base chroma 0, conversion stand-in with zero saturation, zero anchors);
the step-50 sample of the generated scale has chroma 0 by the second
conjunct of the claim theorem applied to that member. -/
theorem C8_achromatic_witness :
    ((generatePerceptuallyUniformScale (fun _ _ _ => { h := 0, s := 0, l := 1 / 2 })
        (fun _ s _ => { L := 0, C := s, H := 0 })
        { baseL := 42, baseC := 0, baseH := 0, startL := 98, endL := 8,
          startS := 0, endS := 0, startHueShift := 0,
          endHueShift := 0 }).get? 0).map OKLCH.C = some 0 := by
  have hg : (generatePerceptuallyUniformScale (fun _ _ _ => { h := 0, s := 0, l := 1 / 2 })
      (fun _ s _ => { L := 0, C := s, H := 0 })
      { baseL := 42, baseC := 0, baseH := 0, startL := 98, endL := 8,
        startS := 0, endS := 0, startHueShift := 0, endHueShift := 0 }).get? 0 =
      some (scaleSample (fun _ s _ => { L := 0, C := s, H := 0 })
        { baseL := 42, baseC := 0, baseH := 0, startL := 98, endL := 8,
          startS := 0, endS := 0, startHueShift := 0, endHueShift := 0 }
        { h := 0, s := 0, l := 1 / 2 } 50) := rfl
  rw [hg]
  have hmem := List.get?_mem hg
  have h := (C8_achromatic_chroma_zero (fun _ _ _ => { h := 0, s := 0, l := 1 / 2 })
    (fun _ s _ => { L := 0, C := s, H := 0 })
    { baseL := 42, baseC := 0, baseH := 0, startL := 98, endL := 8,
      startS := 0, endS := 0, startHueShift := 0, endHueShift := 0 }).2
    rfl rfl rfl rfl _ hmem
  rw [Option.map_some', h]

open ColorScale in
/-- Claim C10: Mode B returns exactly 13 samples, the i-th being the
converted sample of the OKhsl triple resolved for the i-th label of the
strictly ascending step table; and whenever the conversion reports an
undefined hue for a step, that step's emitted H is coerced to exactly
0. -/
theorem C10_generateScale_shape (conv : ℝ → ℝ → ℝ → ScaleV2.OklchCoords)
    (cfg : ScaleV2.ConfigB) :
    (ScaleV2.generateScale conv cfg).length = 13 ∧
    ScaleV2.STEPS.Sorted (· < ·) ∧
    (∀ i : ℕ, i < 13 → (ScaleV2.generateScale conv cfg).get? i =
      some (ScaleV2.mkOklchSample conv
        (ScaleV2.resolveStep cfg (ScaleV2.STEPS.getD i 0)))) ∧
    (∀ i : ℕ, i < 13 →
      (conv (ScaleV2.resolveStep cfg (ScaleV2.STEPS.getD i 0)).h
        (ScaleV2.resolveStep cfg (ScaleV2.STEPS.getD i 0)).s
        (ScaleV2.resolveStep cfg (ScaleV2.STEPS.getD i 0)).l).H = none →
      ((ScaleV2.generateScale conv cfg).get? i).map OKLCH.H = some 0) := by
  have hget : ∀ i : ℕ, i < 13 → (ScaleV2.generateScale conv cfg).get? i =
      some (ScaleV2.mkOklchSample conv
        (ScaleV2.resolveStep cfg (ScaleV2.STEPS.getD i 0))) := by
    intro i hi
    interval_cases i <;> rfl
  refine ⟨?_, by decide, hget, ?_⟩
  · rw [ScaleV2.generateScale, List.length_map, ScaleV2.generateScaleOkhsl,
      List.length_map]
    rfl
  · intro i hi hnone
    rw [hget i hi, Option.map_some']
    have hH : (ScaleV2.mkOklchSample conv
        (ScaleV2.resolveStep cfg (ScaleV2.STEPS.getD i 0))).H = 0 := by
      simp only [ScaleV2.mkOklchSample]
      rw [hnone]
      rfl
    rw [hH]

/-- Witness for claim C10: a conversion stand-in that always reports an
undefined hue; the step-50 sample of a concrete configuration has H
coerced to exactly 0, by the last conjunct of the claim theorem. -/
theorem C10_generateScale_witness :
    ((ScaleV2.generateScale (fun _ _ _ => { L := 1 / 2, C := 0, H := none })
        { baseHue := 0, baseSaturation := 0, baseLightness := 50 }).get? 0).map
      ColorScale.OKLCH.H = some 0 :=
  (C10_generateScale_shape (fun _ _ _ => { L := 1 / 2, C := 0, H := none })
    { baseHue := 0, baseSaturation := 0, baseLightness := 50 }).2.2.2 0
    (by norm_num) rfl

namespace ColorScale

lemma easeOutSine_zero : easeOutSine 0 = 0 := by
  rw [easeOutSine]
  norm_num

lemma easeOutSine_one : easeOutSine 1 = 1 := by
  rw [easeOutSine, one_mul, Real.sin_pi_div_two]

lemma easeInSine_zero : easeInSine 0 = 0 := by
  rw [easeInSine]
  norm_num

lemma easeOutSine_mono {a b : ℝ} (h0 : 0 ≤ a) (hab : a ≤ b) (h1 : b ≤ 1) :
    easeOutSine a ≤ easeOutSine b := by
  rw [easeOutSine, easeOutSine]
  have hpi := Real.pi_pos
  refine Real.strictMonoOn_sin.monotoneOn ?_ ?_ ?_
  · constructor
    · nlinarith
    · nlinarith
  · constructor
    · nlinarith
    · nlinarith
  · nlinarith

lemma easeInSine_mono {a b : ℝ} (h0 : 0 ≤ a) (hab : a ≤ b) (h1 : b ≤ 1) :
    easeInSine a ≤ easeInSine b := by
  rw [easeInSine, easeInSine]
  have hpi := Real.pi_pos
  have hcos : Real.cos (b * Real.pi / 2) ≤ Real.cos (a * Real.pi / 2) := by
    refine Real.strictAntiOn_cos.antitoneOn ?_ ?_ ?_
    · constructor
      · nlinarith
      · nlinarith
    · constructor
      · nlinarith
      · nlinarith
    · nlinarith
  linarith

lemma shadeBoostSat_eq_rising (b endS boost : ℝ) (peak : ℕ) (hp1 : 500 < peak)
    (s : ℕ) (hs0 : 500 ≤ s) (hs1 : s ≤ peak) :
    shadeBoostSat b endS peak boost s =
      b + (b * boost - b) * easeOutSine (((s : ℝ) - 500) / ((peak : ℝ) - 500)) := by
  rcases eq_or_lt_of_le hs0 with h500 | h500
  · rw [shadeBoostSat, if_pos h500.symm]
    have ht : ((s : ℝ) - 500) / ((peak : ℝ) - 500) = 0 := by
      rw [← h500]
      norm_num
    rw [ht, easeOutSine_zero]
    ring
  · rw [shadeBoostSat, if_neg (by omega)]
    rcases eq_or_lt_of_le hs1 with hpeak | hlt
    · simp only [peakOverride]
      rw [if_pos hpeak]
      have hpb : ((peak : ℝ) - 500) ≠ 0 := by
        have : (500 : ℝ) < (peak : ℝ) := by exact_mod_cast hp1
        linarith
      have ht : ((s : ℝ) - 500) / ((peak : ℝ) - 500) = 1 := by
        rw [hpeak]
        exact div_self hpb
      rw [ht, easeOutSine_one]
      ring
    · simp only [peakOverride]
      rw [if_neg (by omega), if_pos hlt]

lemma shadeBoostSat_eq_falling (b endS boost : ℝ) (peak : ℕ) (hp1 : 500 < peak)
    (s : ℕ) (hs0 : peak ≤ s) :
    shadeBoostSat b endS peak boost s =
      b * boost + (endS - b * boost) *
        easeInSine (((s : ℝ) - (peak : ℝ)) / (950 - (peak : ℝ))) := by
  rw [shadeBoostSat, if_neg (by omega)]
  rcases eq_or_lt_of_le hs0 with hpeak | hlt
  · simp only [peakOverride]
    rw [if_pos hpeak.symm]
    have ht : ((s : ℝ) - (peak : ℝ)) / (950 - (peak : ℝ)) = 0 := by
      rw [← hpeak]
      norm_num
    rw [ht, easeInSine_zero]
    ring
  · simp only [peakOverride]
    rw [if_neg (by omega), if_neg (by omega)]

end ColorScale

open ColorScale in
/-- Counterexample for claim C6: with the Peak Booster active at
`peakStep = 600` and `boost = 1/2` on base saturation 1, the saturation
profile is 1 at the pivot and `1 * 1/2 = 1/2` at the peak, so it is not
non-decreasing from pivot to peak as the claim states (the claim omits
that the boost must be at least 1). -/
theorem C6_counterexample :
    ¬ shadeBoostSat 1 0 600 (1 / 2) 500 ≤ shadeBoostSat 1 0 600 (1 / 2) 600 := by
  have h500 : shadeBoostSat 1 0 600 (1 / 2) 500 = 1 := by
    rw [shadeBoostSat, if_pos rfl]
  have h600 : shadeBoostSat 1 0 600 (1 / 2) 600 = 1 / 2 := by
    rw [shadeBoostSat, if_neg (by omega)]
    simp only [peakOverride]
    norm_num
  rw [h500, h600]
  norm_num

open ColorScale in
/-- Claim C6 (amended): when the Peak Booster is active with a
nonnegative base saturation, a boost of at least 1, and an end
saturation no larger than the boosted peak, the shade-half saturation
profile equals `baseSaturation * boost` exactly at the peak step, equals
`baseSaturation` (unboosted) at the pivot, is non-decreasing from pivot
to peak, and is non-increasing from peak to the last step.  Without
`1 ≤ boost` (or with `endS` above the peak) the monotonicity fails, as
the counterexample shows. -/
theorem C6_peak_boost_profile (b endS boost : ℝ) (peak : ℕ)
    (hb : 0 ≤ b) (hboost : 1 ≤ boost) (hendS : endS ≤ b * boost)
    (hp1 : 500 < peak) (hp2 : peak ≤ 950) :
    shadeBoostSat b endS peak boost peak = b * boost ∧
    shadeBoostSat b endS peak boost 500 = b ∧
    (∀ s1 s2 : ℕ, 500 ≤ s1 → s1 ≤ s2 → s2 ≤ peak →
      shadeBoostSat b endS peak boost s1 ≤ shadeBoostSat b endS peak boost s2) ∧
    (∀ s1 s2 : ℕ, peak ≤ s1 → s1 ≤ s2 → s2 ≤ 950 →
      shadeBoostSat b endS peak boost s2 ≤ shadeBoostSat b endS peak boost s1) := by
  have hpR : (500 : ℝ) < (peak : ℝ) := by exact_mod_cast hp1
  have hpb : (0 : ℝ) < (peak : ℝ) - 500 := by linarith
  refine ⟨?_, ?_, ?_, ?_⟩
  · rw [shadeBoostSat_eq_rising b endS boost peak hp1 peak (by omega) le_rfl,
      div_self (ne_of_gt hpb), easeOutSine_one]
    ring
  · rw [shadeBoostSat, if_pos rfl]
  · intro s1 s2 h1 h2 h3
    rw [shadeBoostSat_eq_rising b endS boost peak hp1 s1 h1 (le_trans h2 h3),
      shadeBoostSat_eq_rising b endS boost peak hp1 s2 (le_trans h1 h2) h3]
    have hfac : 0 ≤ b * boost - b := by nlinarith
    have hc1 : (500 : ℝ) ≤ (s1 : ℝ) := by exact_mod_cast h1
    have hc2 : (s1 : ℝ) ≤ (s2 : ℝ) := by exact_mod_cast h2
    have hc3 : (s2 : ℝ) ≤ (peak : ℝ) := by exact_mod_cast h3
    have ht0 : 0 ≤ ((s1 : ℝ) - 500) / ((peak : ℝ) - 500) :=
      div_nonneg (by linarith) (le_of_lt hpb)
    have htm : ((s1 : ℝ) - 500) / ((peak : ℝ) - 500) ≤
        ((s2 : ℝ) - 500) / ((peak : ℝ) - 500) := by
      exact div_le_div_of_nonneg_right (by linarith) (le_of_lt hpb)
    have ht1 : ((s2 : ℝ) - 500) / ((peak : ℝ) - 500) ≤ 1 := by
      rw [div_le_one hpb]
      linarith
    have := easeOutSine_mono ht0 htm ht1
    nlinarith
  · intro s1 s2 h1 h2 h3
    rw [shadeBoostSat_eq_falling b endS boost peak hp1 s1 h1,
      shadeBoostSat_eq_falling b endS boost peak hp1 s2 (le_trans h1 h2)]
    have hfac : endS - b * boost ≤ 0 := by linarith
    rcases eq_or_lt_of_le hp2 with h950 | h950
    · have hs1 : s1 = 950 := by omega
      have hs2 : s2 = 950 := by omega
      rw [hs1, hs2]
    · have hq : (0 : ℝ) < 950 - (peak : ℝ) := by
        have : (peak : ℝ) < 950 := by exact_mod_cast h950
        linarith
      have hc1 : (peak : ℝ) ≤ (s1 : ℝ) := by exact_mod_cast h1
      have hc2 : (s1 : ℝ) ≤ (s2 : ℝ) := by exact_mod_cast h2
      have hc3 : (s2 : ℝ) ≤ 950 := by exact_mod_cast h3
      have ht0 : 0 ≤ ((s1 : ℝ) - (peak : ℝ)) / (950 - (peak : ℝ)) :=
        div_nonneg (by linarith) (le_of_lt hq)
      have htm : ((s1 : ℝ) - (peak : ℝ)) / (950 - (peak : ℝ)) ≤
          ((s2 : ℝ) - (peak : ℝ)) / (950 - (peak : ℝ)) := by
        exact div_le_div_of_nonneg_right (by linarith) (le_of_lt hq)
      have ht1 : ((s2 : ℝ) - (peak : ℝ)) / (950 - (peak : ℝ)) ≤ 1 := by
        rw [div_le_one hq]
        linarith
      have := easeInSine_mono ht0 htm ht1
      nlinarith

open ColorScale in
/-- Witness for claim C6 (amended): base saturation 1, boost 2, end
saturation 0, peak 700; the four conjuncts of the claim theorem applied
at steps 500, 600, 700, 800. -/
theorem C6_peak_boost_witness :
    shadeBoostSat 1 0 700 2 700 = 1 * 2 ∧
    shadeBoostSat 1 0 700 2 500 = 1 ∧
    shadeBoostSat 1 0 700 2 600 ≤ shadeBoostSat 1 0 700 2 700 ∧
    shadeBoostSat 1 0 700 2 800 ≤ shadeBoostSat 1 0 700 2 700 := by
  have h := C6_peak_boost_profile 1 0 2 700 (by norm_num) (by norm_num) (by norm_num)
    (by norm_num) (by norm_num)
  exact ⟨h.1, h.2.1, h.2.2.1 600 700 (by norm_num) (by norm_num) le_rfl,
    h.2.2.2 700 800 le_rfl (by norm_num) (by norm_num)⟩

namespace ScaleV2

lemma numLookup_eq_none (cp : NumMap) (step : ℕ)
    (h : ∀ k ∈ cp.map Prod.fst, k ≠ step) : numLookup cp step = none := by
  induction cp with
  | nil => rfl
  | cons p t ih =>
    obtain ⟨q, r⟩ := p
    rw [numLookup_cons_ne step q r t (fun habs => (h q (by simp)) habs.symm)]
    exact ih (fun k hk => h k (by simp [hk]))

lemma findBracket_adjacent (step lower upper : ℕ) :
    ∀ l : List ℕ, l.Sorted (· ≤ ·) → lower ∈ l → upper ∈ l →
      lower < step → step < upper → (∀ k ∈ l, k ≤ lower ∨ upper ≤ k) →
      findBracket step l = some (lower, upper) := by
  intro l
  induction l with
  | nil =>
    intro _ hl
    exact absurd hl (List.not_mem_nil lower)
  | cons a rest ih =>
    intro hsorted hlow hup hls hsu hadj
    cases rest with
    | nil =>
      rw [List.mem_singleton] at hlow hup
      omega
    | cons b rest2 =>
      have hsort2 : List.Sorted (· ≤ ·) (b :: rest2) := (List.sorted_cons.mp hsorted).2
      have hall : ∀ x ∈ b :: rest2, a ≤ x := (List.sorted_cons.mp hsorted).1
      have halow : a ≤ lower := by
        rcases hadj a (by simp) with h1 | h1
        · exact h1
        · exfalso
          rcases List.mem_cons.mp hlow with rfl | hmem
          · omega
          · have := hall lower hmem
            omega
      by_cases hbl : b ≤ lower
      · rw [findBracket, if_neg (by omega)]
        refine ih hsort2 ?_ ?_ hls hsu (fun k hk => hadj k (by simp [hk]))
        · rcases List.mem_cons.mp hlow with rfl | hmem
          · have hab : lower ≤ b := hall b (by simp)
            have hblow : b = lower := le_antisymm hbl hab
            rw [hblow]
            exact List.mem_cons_self lower rest2
          · exact hmem
        · rcases List.mem_cons.mp hup with rfl | hmem
          · omega
          · exact hmem
      · have hub : upper ≤ b := by
          rcases hadj b (by simp) with h1 | h1
          · omega
          · exact h1
        rw [findBracket, if_pos (by omega)]
        have ha : a = lower := by
          by_contra hne
          have hlow2 : lower ∈ b :: rest2 := by
            rcases List.mem_cons.mp hlow with rfl | hmem
            · exact absurd rfl hne
            · exact hmem
          rcases List.mem_cons.mp hlow2 with rfl | hmem
          · omega
          · have := (List.sorted_cons.mp hsort2).1 lower hmem
            omega
        have hb : b = upper := by
          by_contra hne
          have hup2 : upper ∈ b :: rest2 := by
            rcases List.mem_cons.mp hup with rfl | hmem
            · omega
            · exact hmem
          rcases List.mem_cons.mp hup2 with rfl | hmem
          · exact absurd rfl hne
          · have := (List.sorted_cons.mp hsort2).1 upper hmem
            omega
        rw [ha, hb]

lemma findBracket_none_of_lt (step : ℕ) :
    ∀ l : List ℕ, (∀ k ∈ l, step < k) → findBracket step l = none := by
  intro l
  induction l with
  | nil => intro _; rfl
  | cons a rest ih =>
    intro h
    cases rest with
    | nil => rfl
    | cons b rest2 =>
      rw [findBracket, if_neg (by
        have := h a (by simp)
        omega)]
      exact ih (fun k hk => h k (by simp [hk]))

lemma findBracket_none_of_gt (step : ℕ) :
    ∀ l : List ℕ, (∀ k ∈ l, k < step) → findBracket step l = none := by
  intro l
  induction l with
  | nil => intro _; rfl
  | cons a rest ih =>
    intro h
    cases rest with
    | nil => rfl
    | cons b rest2 =>
      rw [findBracket, if_neg (by
        have := h b (by simp)
        omega)]
      exact ih (fun k hk => h k (by simp [hk]))

lemma sorted_head_min (x : ℕ) (xs : List ℕ) (h : List.Sorted (· ≤ ·) (x :: xs)) :
    ∀ y ∈ x :: xs, x ≤ y := by
  intro y hy
  rcases List.mem_cons.mp hy with rfl | hmem
  · exact le_refl y
  · exact (List.sorted_cons.mp h).1 y hmem

lemma sorted_getLastD_max :
    ∀ (xs : List ℕ) (x d : ℕ), List.Sorted (· ≤ ·) (x :: xs) →
      ∀ y ∈ x :: xs, y ≤ (x :: xs).getLastD d := by
  intro xs
  induction xs with
  | nil =>
    intro x d _ y hy
    rw [List.mem_singleton] at hy
    subst hy
    exact le_refl y
  | cons z zs ih =>
    intro x d h y hy
    rw [List.getLastD_cons]
    rcases List.mem_cons.mp hy with rfl | hmem
    · have hxz : y ≤ z := (List.sorted_cons.mp h).1 z (by simp)
      exact le_trans hxz (ih z y (List.sorted_cons.mp h).2 z (by simp))
    · exact ih z x (List.sorted_cons.mp h).2 y hmem

lemma getLastD_mem :
    ∀ (xs : List ℕ) (x d : ℕ), (x :: xs).getLastD d ∈ x :: xs := by
  intro xs
  induction xs with
  | nil => intro x d; exact List.mem_singleton.mpr rfl
  | cons z zs ih =>
    intro x d
    rw [List.getLastD_cons]
    exact List.mem_cons_of_mem x (ih z x)

lemma mem_sortedSteps (cp : NumMap) (x : ℕ) :
    x ∈ sortedSteps cp ↔ x ∈ cp.map Prod.fst := by
  rw [sortedSteps]
  exact (List.perm_insertionSort (· ≤ ·) (cp.map Prod.fst)).mem_iff

lemma sortedSteps_sorted (cp : NumMap) : (sortedSteps cp).Sorted (· ≤ ·) := by
  rw [sortedSteps]
  exact List.sorted_insertionSort (· ≤ ·) (cp.map Prod.fst)

end ScaleV2

open ScaleV2 in
/-- Claim C4: the Mode B anchor interpolator returns an explicit control
point verbatim; for a step strictly between two defined labels that are
adjacent (no defined label lies strictly between them) it interpolates
linearly by numeric label distance `t = (step - lower) / (upper -
lower)`; and for a step below every defined label (resp. above every
defined label) it clamps to the value of the smallest (resp. largest)
defined label. -/
theorem C4_interpolateValue_spec (cp : NumMap) (step : ℕ) :
    (∀ v : ℝ, numLookup cp step = some v → interpolateValue step cp = v) ∧
    (∀ lower upper : ℕ, numLookup cp step = none →
      lower ∈ cp.map Prod.fst → upper ∈ cp.map Prod.fst →
      lower < step → step < upper →
      (∀ k ∈ cp.map Prod.fst, k ≤ lower ∨ upper ≤ k) →
      interpolateValue step cp =
        cpGet cp lower + (cpGet cp upper - cpGet cp lower) *
          (((step : ℝ) - (lower : ℝ)) / ((upper : ℝ) - (lower : ℝ)))) ∧
    (cp ≠ [] → (∀ k ∈ cp.map Prod.fst, step < k) →
      ∃ m ∈ cp.map Prod.fst, (∀ k ∈ cp.map Prod.fst, m ≤ k) ∧
        interpolateValue step cp = cpGet cp m) ∧
    (cp ≠ [] → (∀ k ∈ cp.map Prod.fst, k < step) →
      ∃ m ∈ cp.map Prod.fst, (∀ k ∈ cp.map Prod.fst, k ≤ m) ∧
        interpolateValue step cp = cpGet cp m) := by
  refine ⟨fun v hv => interpolateValue_exact step cp v hv, ?_, ?_, ?_⟩
  · intro lower upper hnone hlow hup hls hsu hadj
    have hfb : findBracket step (sortedSteps cp) = some (lower, upper) :=
      findBracket_adjacent step lower upper (sortedSteps cp) (sortedSteps_sorted cp)
        ((mem_sortedSteps cp lower).mpr hlow) ((mem_sortedSteps cp upper).mpr hup)
        hls hsu (fun k hk => hadj k ((mem_sortedSteps cp k).mp hk))
    rw [interpolateValue, hnone]
    simp only [hfb]
  · intro hne hlt
    have hnone : numLookup cp step = none :=
      numLookup_eq_none cp step (fun k hk => by
        have := hlt k hk
        omega)
    have hfb : findBracket step (sortedSteps cp) = none :=
      findBracket_none_of_lt step (sortedSteps cp)
        (fun k hk => hlt k ((mem_sortedSteps cp k).mp hk))
    rcases hss : sortedSteps cp with _ | ⟨x, xs⟩
    · exfalso
      have : cp.map Prod.fst = [] := by
        have hperm := List.perm_insertionSort (· ≤ ·) (cp.map Prod.fst)
        rw [sortedSteps] at hss
        rw [hss] at hperm
        exact hperm.symm.eq_nil
      cases cp with
      | nil => exact hne rfl
      | cons p t => simp at this
    · refine ⟨x, ?_, ?_, ?_⟩
      · exact (mem_sortedSteps cp x).mp (by rw [hss]; exact List.mem_cons_self x xs)
      · intro k hk
        have hsorted : List.Sorted (· ≤ ·) (x :: xs) := by
          rw [← hss]
          exact sortedSteps_sorted cp
        exact sorted_head_min x xs hsorted k (by
          rw [← hss]
          exact (mem_sortedSteps cp k).mpr hk)
      · rw [hss] at hfb
        rw [interpolateValue, hnone]
        simp only [hss, hfb, List.headD_cons]
        rw [if_pos (hlt x ((mem_sortedSteps cp x).mp (by
          rw [hss]
          exact List.mem_cons_self x xs)))]
  · intro hne hgt
    have hnone : numLookup cp step = none :=
      numLookup_eq_none cp step (fun k hk => by
        have := hgt k hk
        omega)
    have hfb : findBracket step (sortedSteps cp) = none :=
      findBracket_none_of_gt step (sortedSteps cp)
        (fun k hk => hgt k ((mem_sortedSteps cp k).mp hk))
    rcases hss : sortedSteps cp with _ | ⟨x, xs⟩
    · exfalso
      have : cp.map Prod.fst = [] := by
        have hperm := List.perm_insertionSort (· ≤ ·) (cp.map Prod.fst)
        rw [sortedSteps] at hss
        rw [hss] at hperm
        exact hperm.symm.eq_nil
      cases cp with
      | nil => exact hne rfl
      | cons p t => simp at this
    · have hsorted : List.Sorted (· ≤ ·) (x :: xs) := by
        rw [← hss]
        exact sortedSteps_sorted cp
      refine ⟨(x :: xs).getLastD 0, ?_, ?_, ?_⟩
      · exact (mem_sortedSteps cp _).mp (by
          rw [hss]
          exact getLastD_mem xs x 0)
      · intro k hk
        exact sorted_getLastD_max xs x 0 hsorted k (by
          rw [← hss]
          exact (mem_sortedSteps cp k).mpr hk)
      · rw [hss] at hfb
        rw [interpolateValue, hnone]
        simp only [hss, hfb, List.headD_cons]
        rw [if_neg (by
          have hx : x < step := hgt x ((mem_sortedSteps cp x).mp (by
            rw [hss]
            exact List.mem_cons_self x xs))
          omega)]

open ScaleV2 in
/-- Witness for claim C4: the control-point map `{50: 10, 500: 20,
950: 80}` queried at step 300, which has no explicit entry and is
bracketed by the adjacent labels 50 and 500; the bracketing conjunct of
the claim theorem gives `10 + (20 - 10) * ((300 - 50) / (500 - 50)) =
140/9`. -/
theorem C4_interpolateValue_witness :
    interpolateValue 300 [(50, (10 : ℝ)), (500, 20), (950, 80)] = 140 / 9 := by
  have h := (C4_interpolateValue_spec [(50, (10 : ℝ)), (500, 20), (950, 80)] 300).2.1
    50 500 rfl (by norm_num) (by norm_num) (by norm_num) (by norm_num)
    (by
      intro k hk
      simp only [List.map_cons, List.map_nil, List.mem_cons,
        List.not_mem_nil, or_false] at hk
      rcases hk with rfl | rfl | rfl
      · omega
      · omega
      · omega)
  rw [h]
  have h1 : cpGet [(50, (10 : ℝ)), (500, 20), (950, 80)] 50 = 10 := rfl
  have h2 : cpGet [(50, (10 : ℝ)), (500, 20), (950, 80)] 500 = 20 := rfl
  rw [h1, h2]
  norm_num
